import Mathlib

/-!
Verification development for the `dw-local-free` data-warehouse ETL pipeline.

The definitions below are a shallow embedding of the Python sources:
* `src/transform.py` — `transform_weather_to_fact`, `transform_wikipedia_to_fact`
* `src/seed_loader.py` — `ensure_location_dimension`
* `src/data_quality.py` — the expectation suites of the quality gate
* `workflows/daily_pipeline.py` — the Prefect flow `daily_pipeline` and its tasks

Database tables are modelled as Lean lists of typed rows; SQL upserts and
`SELECT ... WHERE` lookups become list operations.  Numeric columns are
modelled as `ℚ`, timestamps as `ℕ` (an already-parsed instant; `none` in a
`Option ℕ` timestamp field models a malformed/unparseable value, which is
exactly the case where `datetime.fromisoformat` raises).  JSON payload
fields that may be absent are `Option` fields.  Each Python transaction is
modelled explicitly: work inside a transaction is accumulated and applied
to the table only at the `commit()` point; `rollback()` discards it.
-/

namespace DW

/-! ## Weather transform (`src/transform.py`, `transform_weather_to_fact`)

The raw payload's `"hourly"` object holds positionally aligned arrays.
A `none` entry in a value array models JSON `null` (Python `None`); a
`none` entry in `time` models a malformed timestamp string, on which
`datetime.fromisoformat` raises inside the per-row `try`.
-/

structure HourlyData where
  time : List (Option Nat)
  temperature_2m : List (Option ℚ)
  relativehumidity_2m : List (Option ℚ)
  windspeed_10m : List (Option ℚ)
  precipitation : List (Option ℚ)
  cloudcover : List (Option ℚ)
  deriving Repr, DecidableEq

/-- A raw weather payload; `hourly = none` models a payload whose
`"hourly"` key is absent or empty (`payload.get("hourly", {})` followed by
`if not hourly`). -/
structure WeatherPayload where
  hourly : Option HourlyData
  deriving Repr, DecidableEq

/-- One row of `raw.weather_observations` as selected by the transform's
`DISTINCT ON` query (latest payload per location identity).
`payload = none` models a NULL/empty payload (`if not payload_json`). -/
structure WeatherRaw where
  location_name : String
  latitude : ℚ
  longitude : ℚ
  payload : Option WeatherPayload
  raw_id : Nat
  deriving Repr, DecidableEq

/-- One row of `core.location` (the fields the transform reads). -/
structure LocationRow where
  location_id : Int
  location_name : String
  latitude : ℚ
  longitude : ℚ
  deriving Repr, DecidableEq

/-- One row of `core.weather` (the fact table), keyed by
`(location_id, observed_at)`. -/
structure WeatherFactRow where
  location_id : Int
  observed_at : Nat
  temperature_celsius : Option ℚ
  humidity_percent : Option ℚ
  wind_speed_mps : Option ℚ
  precipitation_mm : Option ℚ
  cloud_cover_percent : Option ℚ
  raw_ref_id : Nat
  deriving Repr, DecidableEq

/-- `SELECT location_id FROM core.location WHERE location_name = %s AND
latitude = %s AND longitude = %s` followed by `fetchone()`. -/
def lookupLocation (locs : List LocationRow) (name : String) (lat lon : ℚ) :
    Option Int :=
  (locs.find? fun l =>
    l.location_name == name && l.latitude == lat && l.longitude == lon).map
    (·.location_id)

/-- The fact row built for array index `i` with parsed timestamp `t`
(transform.py lines 128-169): value arrays are read with
`xs[i] if i < len(xs) and xs[i] is not None else None`, and wind speed is
converted from km/h to m/s by dividing by 3.6. -/
def mkWeatherRow (hd : HourlyData) (locId : Int) (rawId : Nat) (i : Nat)
    (t : Nat) : WeatherFactRow :=
  { location_id := locId
    observed_at := t
    temperature_celsius := hd.temperature_2m.getD i none
    humidity_percent := hd.relativehumidity_2m.getD i none
    wind_speed_mps := (hd.windspeed_10m.getD i none).map (fun w => w / 3.6)
    precipitation_mm := hd.precipitation.getD i none
    cloud_cover_percent := hd.cloudcover.getD i none
    raw_ref_id := rawId }

/-- `INSERT ... ON CONFLICT (location_id, observed_at) DO UPDATE`: replace
the row with the conflicting key if present, otherwise append. -/
def upsertWeather (facts : List WeatherFactRow) (row : WeatherFactRow) :
    List WeatherFactRow :=
  if facts.any (fun f =>
      f.location_id == row.location_id && f.observed_at == row.observed_at)
  then facts.map (fun f =>
    if f.location_id == row.location_id && f.observed_at == row.observed_at
    then row else f)
  else facts ++ [row]

/-- The inner `for i in range(len(times))` loop of one location, running
inside that location's transaction.  Returns
(rows the transaction holds at commit, the `rows_inserted` counter, and
whether a row-level error occurred).  On a malformed timestamp
(`none` entry) the code logs, calls `conn.rollback()` and `break`s: the
transaction's rows are discarded and no further index is processed, but
the counter keeps the iterations completed before the failure (the code
adds `rows_inserted` to the total after the loop in either case). -/
def explodeWeather (hd : HourlyData) (locId : Int) (rawId : Nat) :
    List (Option Nat) → Nat → List WeatherFactRow × Nat × Bool
  | [], _ => ([], 0, false)
  | none :: _, _ => ([], 0, true)
  | some t :: rest, i =>
      let row := mkWeatherRow hd locId rawId i t
      let r := explodeWeather hd locId rawId rest (i + 1)
      if r.2.2 then ([], r.2.1 + 1, true) else (row :: r.1, r.2.1 + 1, false)

/-- Accumulated result of the weather transform: the fact table plus the
two counters of the returned summary. -/
structure WeatherOutcome where
  facts : List WeatherFactRow
  locations_processed : Nat
  rows_inserted : Nat
  deriving Repr, DecidableEq

/-- One iteration of the outer `for ... in raw_records` loop
(transform.py lines 72-194).  The `continue` branches (NULL payload,
missing hourly data, unknown location, empty time array) skip the record
without touching the fact table or the counters.  Otherwise the location's
rows are exploded inside its own transaction; `conn.commit()` at line 179
applies them (none, if the transaction was rolled back), after which both
counters are incremented. -/
def processWeatherRecord (locs : List LocationRow) (acc : WeatherOutcome)
    (r : WeatherRaw) : WeatherOutcome :=
  match r.payload with
  | none => acc
  | some p =>
    match p.hourly with
    | none => acc
    | some hd =>
      match lookupLocation locs r.location_name r.latitude r.longitude with
      | none => acc
      | some locId =>
        if hd.time.isEmpty then acc
        else
          let e := explodeWeather hd locId r.raw_id hd.time 0
          { facts := e.1.foldl upsertWeather acc.facts
            locations_processed := acc.locations_processed + 1
            rows_inserted := acc.rows_inserted + e.2.1 }

/-- `transform_weather_to_fact` (transform.py lines 18-203), as a function
of the location dimension, the initial fact table and the list of raw
records selected by the `DISTINCT ON` query (latest raw row per location
identity). -/
def transform_weather_to_fact (locs : List LocationRow)
    (facts0 : List WeatherFactRow) (records : List WeatherRaw) :
    WeatherOutcome :=
  records.foldl (processWeatherRecord locs) ⟨facts0, 0, 0⟩

/-! ## Wikipedia transform (`src/transform.py`, `transform_wikipedia_to_fact`)

Type-2 slowly-changing-dimension logic for `core.wikipedia_page` plus
append-once revision facts in `core.revision`.
-/

/-- The JSON value found under the payload's `"namespace"` key
(transform.py lines 244-248): missing key defaults to `{}` (a dict), a
dict is read with `.get("id", 0)`, anything else goes through
`namespace_id or 0`. -/
inductive NsField
  /-- key absent: `payload.get("namespace", {})` yields `{}`. -/
  | absent
  /-- key present with JSON null: `None or 0` yields 0. -/
  | null
  /-- key present with a number `n`: `n or 0` yields `n`. -/
  | num (n : Int)
  /-- key present with an object, holding an optional `"id"` member. -/
  | obj (id : Option Int)
  deriving Repr, DecidableEq

/-- `namespace_id` as computed on transform.py lines 244-248. -/
def namespaceOf : NsField → Int
  | .absent => 0
  | .null => 0
  | .num n => n
  | .obj i => i.getD 0

/-- The summary JSON payload stored for a Wikipedia page.  `Option`
fields model keys that may be absent (the code supplies fallbacks from the
raw row's columns).  `timestamp` is an already-parsed instant; `none`
also covers an unparseable string (the bare `except` on line 259 falls
back exactly like an absent key, to `datetime.now`). -/
structure WikiPayload where
  pageid : Option Int
  title : Option String
  namespace_json : NsField
  revision : Option String
  timestamp : Option Nat
  deriving Repr, DecidableEq

/-- One row of `raw.wikipedia_pages` as selected by the `DISTINCT ON`
query (latest payload per `(page_title, page_language)`); the trailing
columns are the stored raw metadata used as fallbacks. -/
structure WikiRaw where
  page_title : String
  page_language : String
  payload : Option WikiPayload
  raw_id : Nat
  page_id : Option Int
  revision_id : String
  revision_timestamp : Option Nat
  revision_size_bytes : Option Int
  deriving Repr, DecidableEq

/-- `wikipedia_page_id = payload.get("pageid", page_id)` — may be NULL
when both the payload key and the raw column are missing. -/
def wpidOf (p : WikiPayload) (r : WikiRaw) : Option Int :=
  p.pageid <|> r.page_id

/-- `current_title = payload.get("title", page_title)`. -/
def titleOf (p : WikiPayload) (r : WikiRaw) : String :=
  p.title.getD r.page_title

/-- `current_revision_id = str(payload.get("revision", revision_id))`. -/
def revIdOf (p : WikiPayload) (r : WikiRaw) : String :=
  p.revision.getD r.revision_id

/-- `revision_ts` (transform.py lines 253-262): payload timestamp, else
the stored raw timestamp, else (also on a parse failure) `now`. -/
def revTsOf (p : WikiPayload) (r : WikiRaw) (now : Nat) : Nat :=
  ((p.timestamp <|> r.revision_timestamp)).getD now

/-- One row of `core.wikipedia_page`.  `page_id` is the surrogate key
(a serial, modelled by the `nextPageId` counter of `WikiDB`);
`wikipedia_page_id` is the external natural id and is nullable. -/
structure PageDimRow where
  page_id : Int
  wikipedia_page_id : Option Int
  page_title : String
  namespace_id : Int
  page_language : String
  valid_from : Nat
  valid_to : Option Nat
  is_current : Bool
  deriving Repr, DecidableEq

/-- One row of `core.revision`, keyed by `(page_id, revision_id)`. -/
structure RevisionRow where
  page_id : Int
  revision_id : String
  revision_timestamp : Nat
  content_len : Int
  fetched_at : Nat
  raw_ref_id : Nat
  deriving Repr, DecidableEq

/-- The store the Wikipedia transform reads and writes.  `nextPageId`
models the sequence backing the surrogate `page_id` column. -/
structure WikiDB where
  pages : List PageDimRow
  revisions : List RevisionRow
  nextPageId : Int
  deriving Repr, DecidableEq

/-- The `WHERE wikipedia_page_id = %s AND page_language = %s AND
is_current = true` predicate.  SQL `=` with a NULL parameter matches no
row, and a NULL column matches no value. -/
def currentMatch (wpid : Option Int) (lang : String) (row : PageDimRow) :
    Bool :=
  row.is_current && row.page_language == lang &&
    (match wpid with
     | none => false
     | some v => row.wikipedia_page_id == some v)

/-- The dimension lookup of transform.py lines 265-271 (`fetchone()`). -/
def findCurrentPage (db : WikiDB) (wpid : Option Int) (lang : String) :
    Option PageDimRow :=
  db.pages.find? (currentMatch wpid lang)

/-- `UPDATE core.wikipedia_page SET valid_to = %s, is_current = false
WHERE page_id = %s`. -/
def closePages (pages : List PageDimRow) (pid : Int) (now : Nat) :
    List PageDimRow :=
  pages.map fun row =>
    if row.page_id == pid
    then { row with valid_to := some now, is_current := false }
    else row

/-- `INSERT INTO core.wikipedia_page ... RETURNING page_id`: appends a
fresh current row and returns its serial surrogate id. -/
def insertCurrentPage (db : WikiDB) (wpid : Option Int) (title : String)
    (nsid : Int) (lang : String) (now : Nat) : WikiDB × Int :=
  ({ db with
      pages := db.pages ++
        [{ page_id := db.nextPageId
           wikipedia_page_id := wpid
           page_title := title
           namespace_id := nsid
           page_language := lang
           valid_from := now
           valid_to := none
           is_current := true }]
      nextPageId := db.nextPageId + 1 },
   db.nextPageId)

/-- The revision fact row built on transform.py lines 335-347:
`content_len` is `revision_size_bytes or 0`, so a NULL size becomes 0. -/
def mkRevisionRow (pid : Int) (p : WikiPayload) (r : WikiRaw) (now : Nat) :
    RevisionRow :=
  { page_id := pid
    revision_id := revIdOf p r
    revision_timestamp := revTsOf p r now
    content_len := r.revision_size_bytes.getD 0
    fetched_at := now
    raw_ref_id := r.raw_id }

/-- `INSERT INTO core.revision ... ON CONFLICT (page_id, revision_id) DO
NOTHING`; the returned flag is `cursor.rowcount > 0`. -/
def insertRevision (db : WikiDB) (row : RevisionRow) : WikiDB × Bool :=
  if db.revisions.any (fun x =>
      x.page_id == row.page_id && x.revision_id == row.revision_id)
  then (db, false)
  else ({ db with revisions := db.revisions ++ [row] }, true)

/-- One iteration of the `for ... in raw_records` loop of
`transform_wikipedia_to_fact` (transform.py lines 231-354).  A NULL/empty
payload is skipped; otherwise the type-2 SCD state machine runs and the
revision fact is inserted (append-once).  Each iteration commits, so the
returned store is final for this record.  The Bool is the
`cursor.rowcount > 0` test that feeds `revisions_inserted`. -/
def processWikiRecord (now : Nat) (db : WikiDB) (r : WikiRaw) :
    WikiDB × Bool :=
  match r.payload with
  | none => (db, false)
  | some p =>
    let wpid := wpidOf p r
    let title := titleOf p r
    let nsid := namespaceOf p.namespace_json
    match findCurrentPage db wpid r.page_language with
    | some e =>
      if e.page_title = title then
        insertRevision db (mkRevisionRow e.page_id p r now)
      else
        let db1 := { db with pages := closePages db.pages e.page_id now }
        let s := insertCurrentPage db1 wpid title nsid r.page_language now
        insertRevision s.1 (mkRevisionRow s.2 p r now)
    | none =>
      let s := insertCurrentPage db wpid title nsid r.page_language now
      insertRevision s.1 (mkRevisionRow s.2 p r now)

/-- Result of the Wikipedia transform: the store plus the two counters of
the returned summary. -/
structure WikiOutcome where
  db : WikiDB
  pages_processed : Nat
  revisions_inserted : Nat
  deriving Repr, DecidableEq

/-- One fold step of the Wikipedia transform's record loop: apply the
record to the store and bump the two counters. -/
def wikiStep (now : Nat) (acc : WikiOutcome) (r : WikiRaw) :
    WikiOutcome :=
  let s := processWikiRecord now acc.db r
  { db := s.1
    pages_processed :=
      acc.pages_processed + (if r.payload.isSome then 1 else 0)
    revisions_inserted :=
      acc.revisions_inserted + (if s.2 then 1 else 0) }

/-- `transform_wikipedia_to_fact` (transform.py lines 206-368), as a
function of the run instant, the store, and the raw records selected by
the `DISTINCT ON` query (latest raw row per `(page_title,
page_language)`).  `pages_processed` counts non-skipped records. -/
def transform_wikipedia_to_fact (now : Nat) (db0 : WikiDB)
    (records : List WikiRaw) : WikiOutcome :=
  records.foldl (wikiStep now) ⟨db0, 0, 0⟩

/-! ## Seed loader (`src/seed_loader.py`, `ensure_location_dimension`) -/

/-- A location entry of `seed_data.yaml`; the `Option` fields carry the
`loc.get(...)` defaults applied by the loader. -/
structure SeedLocation where
  name : String
  latitude : ℚ
  longitude : ℚ
  country : Option String
  region : Option String
  city : Option String
  deriving Repr, DecidableEq

/-- A page entry of `seed_data.yaml`. -/
structure SeedPage where
  title : String
  language : Option String
  namespace_json : Option Int
  deriving Repr, DecidableEq

/-- Full `core.location` row shape written by the seed loader (the
weather transform reads only the first four fields). -/
structure LocationDimRow where
  location_id : Int
  location_name : String
  latitude : ℚ
  longitude : ℚ
  country : String
  region : String
  city : String
  deriving Repr, DecidableEq

/-- `INSERT INTO core.location ... ON CONFLICT (location_name, latitude,
longitude) DO UPDATE SET country, region, city` (seed_loader.py lines
46-63); a fresh row takes the next serial id. -/
def upsertSeedLocation (st : List LocationDimRow × Int) (s : SeedLocation) :
    List LocationDimRow × Int :=
  let hit (f : LocationDimRow) : Bool :=
    f.location_name == s.name && f.latitude == s.latitude &&
      f.longitude == s.longitude
  if st.1.any hit then
    (st.1.map fun f =>
      if hit f then
        { f with
            country := s.country.getD "US"
            region := s.region.getD ""
            city := s.city.getD s.name }
      else f,
     st.2)
  else
    (st.1 ++
      [{ location_id := st.2
         location_name := s.name
         latitude := s.latitude
         longitude := s.longitude
         country := s.country.getD "US"
         region := s.region.getD ""
         city := s.city.getD s.name }],
     st.2 + 1)

/-- `SELECT MIN(wikipedia_page_id) FROM core.wikipedia_page WHERE
wikipedia_page_id < 0` (SQL MIN ignores NULLs and returns NULL on an
empty set). -/
def minNegativeId (pages : List PageDimRow) : Option Int :=
  (((pages.filterMap (·.wikipedia_page_id)).filter (· < 0))).min?

/-- State threaded through the page section of the seed loader:
the dimension rows, the surrogate serial, the next synthetic external id,
the ids assigned so far (newest first; a ghost field recording what the
claims are about, not returned by the Python function), and the
`(pages_processed, pages_inserted)` counters. -/
structure SeedPageState where
  pages : List PageDimRow
  nextSurrogate : Int
  next_id : Int
  assigned_ids : List Int
  pages_processed : Nat
  pages_inserted : Nat
  deriving Repr, DecidableEq

/-- One iteration of the `for page in wikipedia_pages` loop
(seed_loader.py lines 88-120): insert only if no current row exists for
`(title, language)`; a successful insert consumes the current synthetic
negative id and decrements it. -/
def seedOnePage (now : Nat) (st : SeedPageState) (s : SeedPage) :
    SeedPageState :=
  let lang := s.language.getD "en"
  match st.pages.find? (fun row =>
      row.page_title == s.title && row.page_language == lang &&
        row.is_current) with
  | some _ =>
      { st with pages_processed := st.pages_processed + 1 }
  | none =>
      { pages := st.pages ++
          [{ page_id := st.nextSurrogate
             wikipedia_page_id := some st.next_id
             page_title := s.title
             namespace_id := s.namespace_json.getD 0
             page_language := lang
             valid_from := now
             valid_to := none
             is_current := true }]
        nextSurrogate := st.nextSurrogate + 1
        next_id := st.next_id - 1
        assigned_ids := st.next_id :: st.assigned_ids
        pages_processed := st.pages_processed + 1
        pages_inserted := st.pages_inserted + 1 }

/-- Result of `ensure_location_dimension`. -/
structure EnsureResult where
  locations : List LocationDimRow
  nextLocationId : Int
  pages : List PageDimRow
  nextSurrogate : Int
  assigned_ids : List Int
  locations_processed : Nat
  locations_inserted : Nat
  pages_processed : Nat
  pages_inserted : Nat
  deriving Repr, DecidableEq

/-- `ensure_location_dimension` (seed_loader.py lines 25-132): upsert
every seed location (the `ON CONFLICT ... DO UPDATE` always reports
`rowcount = 1`, so `locations_inserted` counts every upsert), then insert
every seed page that has no current row, assigning descending synthetic
negative external ids starting at
`(MIN(wikipedia_page_id) WHERE wikipedia_page_id < 0, or -1) - 1`.
`assigned_ids` lists the synthetic ids handed out, in insertion order. -/
def ensure_location_dimension (now : Nat) (locs0 : List LocationDimRow)
    (nextLocId0 : Int) (pages0 : List PageDimRow) (nextSurrogate0 : Int)
    (seed_locations : List SeedLocation) (seed_pages : List SeedPage) :
    EnsureResult :=
  let locState := seed_locations.foldl upsertSeedLocation (locs0, nextLocId0)
  let min_id := (minNegativeId pages0).getD (-1)
  let pageState := seed_pages.foldl (seedOnePage now)
    { pages := pages0
      nextSurrogate := nextSurrogate0
      next_id := min_id - 1
      assigned_ids := []
      pages_processed := 0
      pages_inserted := 0 }
  { locations := locState.1
    nextLocationId := locState.2
    pages := pageState.pages
    nextSurrogate := pageState.nextSurrogate
    assigned_ids := pageState.assigned_ids.reverse
    locations_processed := seed_locations.length
    locations_inserted := seed_locations.length
    pages_processed := pageState.pages_processed
    pages_inserted := pageState.pages_inserted }

/-! ## Data-quality gate rules (`src/data_quality.py`) -/

/-- The content-length expectation of the Wikipedia revision suite
(data_quality.py lines 150-156): `expect_column_values_to_be_between`
with `min_value=1`, `max_value=None` and no `mostly`, i.e. every row's
`content_len` must be at least 1. -/
def wikipedia_content_len_expectation (content_len : Int) : Bool :=
  1 ≤ content_len

/-! ## Pipeline orchestration (`workflows/daily_pipeline.py`)

The Prefect flow body is straight-line Python; it is embedded as a
sequential program over an environment that fixes the outcome of every
external effect.  Task-level retries are folded into the environment:
each `..._fails` flag says whether the task still fails after its
configured retries.  Prefect-2 semantics used by the embedding:

* calling a task in a flow blocks and re-raises its final failure;
* `task.map(xs)` runs one task per element (all of them execute);
* a downstream task whose arguments contain a failed upstream future is
  not run (marked NotReady) and the flow fails — the flow wraps no
  argument in `allow_failure`, so this default applies to the two fan-in
  transform tasks, which receive the raw fetch futures;
* a task that catches its own exception and returns normally is a
  success (so `refresh_materialized_view`, lines 350-357, never fails).
-/

/-- Outcome of a Great Expectations checkpoint as seen by the checkpoint
tasks: `skipped` (`result.get("skipped")`), `passed`
(`result["success"]` true) or `failed`. -/
inductive QualityOutcome
  | skipped
  | passed
  | failed
  deriving Repr, DecidableEq

/-- Environment of one pipeline run: the outcome of every external
effect, each fetch list holding one entry per mapped location/page
(`true` = that task still fails after its retries). -/
structure PipelineEnv where
  location_upsert_fails : Bool
  weather_fetch_fails : List Bool
  weather_transform_fails : Bool
  wikipedia_fetch_fails : List Bool
  wikipedia_transform_fails : Bool
  weather_quality : QualityOutcome
  wikipedia_quality : QualityOutcome
  weather_view_refresh_fails : Bool
  wikipedia_view_refresh_fails : Bool
  weather_view_has_unique_index : Bool
  wikipedia_view_has_unique_index : Bool
  deriving Repr, DecidableEq

/-- A task execution observed during a run (a task that is never started
emits no event). -/
inductive Event
  | location_upsert
  | weather_fetch (i : Nat)
  | weather_transform
  | wikipedia_fetch (i : Nat)
  | wikipedia_transform
  | weather_checkpoint
  | wikipedia_checkpoint
  | view_refresh (view : String)
  deriving Repr, DecidableEq

/-- The structured result returned by `refresh_materialized_view`. -/
structure RefreshResult where
  view_name : String
  status : String
  method : Option String
  error : Option String
  deriving Repr, DecidableEq

/-- `refresh_materialized_view` (daily_pipeline.py lines 290-357): on
any exception the task logs, does not re-raise, and returns a
`status: "failed"` dict with the error recorded; on success it reports
which refresh method the unique-index probe selected. -/
def refresh_materialized_view (fails : Bool) (hasUniqueIndex : Bool)
    (view_name : String) : RefreshResult :=
  if fails then
    { view_name := view_name
      status := "failed"
      method := none
      error := some "refresh error" }
  else
    { view_name := view_name
      status := "success"
      method := some (if hasUniqueIndex then "CONCURRENTLY" else "REGULAR")
      error := none }

/-- `run_weather_data_quality_checkpoint` (daily_pipeline.py lines
207-242): a skipped suite passes through, a failed suite raises. -/
def run_weather_data_quality_checkpoint (q : QualityOutcome) :
    Except String QualityOutcome :=
  match q with
  | .failed => .error "Weather data quality checkpoint FAILED"
  | q => .ok q

/-- `run_wikipedia_data_quality_checkpoint` (daily_pipeline.py lines
245-280): same shape as the weather checkpoint task. -/
def run_wikipedia_data_quality_checkpoint (q : QualityOutcome) :
    Except String QualityOutcome :=
  match q with
  | .failed => .error "Wikipedia data quality checkpoint FAILED"
  | q => .ok q

/-- The summary dict built on daily_pipeline.py lines 492-501 (the
fields the claims are about; the embedded store summaries are omitted). -/
structure PipelineSummary where
  weather_fetch_count : Nat
  wikipedia_fetch_count : Nat
  quality_all_passed : Bool
  refresh_results : List RefreshResult
  views_refreshed : Nat
  pipeline_status : String
  deriving Repr, DecidableEq

/-- The `daily_pipeline` flow (daily_pipeline.py lines 364-504):
returns the trace of executed tasks and either the success summary or
the error that failed the flow. -/
def daily_pipeline (env : PipelineEnv) :
    List Event × Except String PipelineSummary :=
  let t1 := [Event.location_upsert]
  if env.location_upsert_fails then
    (t1, .error "location dimension upsert failed") else
  let t2 := t1 ++ (List.range env.weather_fetch_fails.length).map
    Event.weather_fetch
  if env.weather_fetch_fails.any id then
    (t2, .error "upstream weather fetch task failed") else
  let t3 := t2 ++ [Event.weather_transform]
  if env.weather_transform_fails then
    (t3, .error "weather transform failed") else
  let t4 := t3 ++ (List.range env.wikipedia_fetch_fails.length).map
    Event.wikipedia_fetch
  if env.wikipedia_fetch_fails.any id then
    (t4, .error "upstream wikipedia fetch task failed") else
  let t5 := t4 ++ [Event.wikipedia_transform]
  if env.wikipedia_transform_fails then
    (t5, .error "wikipedia transform failed") else
  let t6 := t5 ++ [Event.weather_checkpoint]
  match run_weather_data_quality_checkpoint env.weather_quality with
  | .error e => (t6, .error e)
  | .ok _ =>
    let t7 := t6 ++ [Event.wikipedia_checkpoint]
    match run_wikipedia_data_quality_checkpoint env.wikipedia_quality with
    | .error e => (t7, .error e)
    | .ok _ =>
      let r1 := refresh_materialized_view env.weather_view_refresh_fails
        env.weather_view_has_unique_index "mart.daily_weather_aggregates"
      let r2 := refresh_materialized_view env.wikipedia_view_refresh_fails
        env.wikipedia_view_has_unique_index "mart.daily_wikipedia_page_stats"
      let t8 := t7 ++ [Event.view_refresh "mart.daily_weather_aggregates",
        Event.view_refresh "mart.daily_wikipedia_page_stats"]
      (t8, .ok
        { weather_fetch_count := env.weather_fetch_fails.length
          wikipedia_fetch_count := env.wikipedia_fetch_fails.length
          quality_all_passed := true
          refresh_results := [r1, r2]
          views_refreshed := 2
          pipeline_status := "success" })

/-! ## Derived predicates used by the statements below -/

/-- Whether an event is a materialized-view refresh attempt. -/
def isRefreshEvent : Event → Bool
  | .view_refresh _ => true
  | _ => false

/-- Whether a pipeline run ended in the failed terminal state. -/
def runFailed (res : List Event × Except String PipelineSummary) : Bool :=
  match res.2 with
  | .error _ => true
  | .ok _ => false

/-- An execution in which the flow reaches step 6 and one of the two
data-quality checkpoint tasks raises. -/
def qualityGateRaises (env : PipelineEnv) : Prop :=
  env.location_upsert_fails = false ∧
  env.weather_fetch_fails.any id = false ∧
  env.weather_transform_fails = false ∧
  env.wikipedia_fetch_fails.any id = false ∧
  env.wikipedia_transform_fails = false ∧
  (env.weather_quality = .failed ∨ env.wikipedia_quality = .failed)

/-- An execution in which every stage before step 7 succeeds, so the
refresh stage is reached. -/
def reachesRefreshStage (env : PipelineEnv) : Prop :=
  env.location_upsert_fails = false ∧
  env.weather_fetch_fails.any id = false ∧
  env.weather_transform_fails = false ∧
  env.wikipedia_fetch_fails.any id = false ∧
  env.wikipedia_transform_fails = false ∧
  env.weather_quality ≠ .failed ∧
  env.wikipedia_quality ≠ .failed

/-- A raw weather record whose processing leaves the fact table
untouched: one of the four `continue` branches fires, or a row-level
failure rolls the location's transaction back (`none ∈ hd.time`). -/
def weatherRecordNoEffect (locs : List LocationRow) (r : WeatherRaw) :
    Bool :=
  match r.payload with
  | none => true
  | some p =>
    match p.hourly with
    | none => true
    | some hd =>
      match lookupLocation locs r.location_name r.latitude r.longitude with
      | none => true
      | some _ => hd.time.isEmpty || hd.time.contains none

/-- The SCD natural key a raw Wikipedia record addresses:
`(external page id, language)`, or `none` when the record is skipped
(NULL payload) or carries no external id at all. -/
def recKey? (r : WikiRaw) : Option (Int × String) :=
  match r.payload with
  | none => none
  | some p => (wpidOf p r).map (fun w => (w, r.page_language))

/-- The current dimension rows for one `(external id, language)` key. -/
def currentRowsFor (pages : List PageDimRow) (wpid : Option Int)
    (lang : String) : List PageDimRow :=
  pages.filter (currentMatch wpid lang)

/-- Store well-formedness: at most one current dimension row per
`(external id, language)` natural key (the §3 invariant), pairwise
distinct surrogate ids, and a surrogate sequence ahead of every existing
id (both facts the serial primary key provides in the database). -/
def GoodPages (db : WikiDB) : Prop :=
  (∀ w lang, (currentRowsFor db.pages (some w) lang).length ≤ 1) ∧
  (db.pages.map (·.page_id)).Nodup ∧
  (∀ row ∈ db.pages, row.page_id < db.nextPageId)

/-- The store already reflects record `r`: its key has exactly one
current row, carrying `r`'s extracted title, and `r`'s revision fact is
present for that row's surrogate id.  (Vacuous for skipped records.) -/
def Established (db : WikiDB) (r : WikiRaw) : Prop :=
  ∀ p, r.payload = some p →
    ∃ w, wpidOf p r = some w ∧
      ∃ e, currentRowsFor db.pages (some w) r.page_language = [e] ∧
        e.page_title = titleOf p r ∧
        ∃ x ∈ db.revisions, x.page_id = e.page_id ∧
          x.revision_id = revIdOf p r

/-! ## Concrete fixtures used by witnesses and counterexamples -/

/-- A one-row location dimension. -/
def locsFixture : List LocationRow :=
  [⟨1, "Boston", 42, -71⟩]

/-- Hourly arrays whose middle timestamp is malformed (index 0 parses,
index 1 raises, index 2 would parse). -/
def hourlyMalformedMiddle : HourlyData :=
  ⟨[some 100, none, some 102],
   [some 10, some 11, some 12],
   [some 50, some 55, some 60],
   [some (12.5 : ℚ), some 13, some 14],
   [none, none, none],
   [none, none, none]⟩

/-- A raw weather record for the known location whose payload has the
malformed middle timestamp. -/
def weatherRawMalformedMiddle : WeatherRaw :=
  ⟨"Boston", 42, -71, some ⟨some hourlyMalformedMiddle⟩, 9⟩

/-- A raw weather record whose payload lacks the hourly key. -/
def weatherRawNoHourly : WeatherRaw :=
  ⟨"Nowhere", 0, 0, some ⟨none⟩, 1⟩

/-- A well-formed raw weather record for the known location. -/
def weatherRawGood : WeatherRaw :=
  ⟨"Boston", 42, -71,
    some ⟨some ⟨[some 100, some 101],
      [some 10, some 11], [some 50, some 60],
      [some (12.5 : ℚ), none], [none, some 1], [some 20, some 30]⟩⟩, 2⟩

/-- A raw page record whose latest payload is present but whose
`revision_size_bytes` column is NULL. -/
def wikiRawNullSize : WikiRaw :=
  ⟨"Boston", "en", some ⟨some 5, some "Boston", .absent, some "r1", none⟩,
    3, none, "r0", none, none⟩

/-- A raw page record whose payload carries external id 42 and title
"A". -/
def wikiRawTitleA : WikiRaw :=
  ⟨"T", "en", some ⟨some 42, some "A", .absent, some "rev1", none⟩,
    1, none, "x", none, some 10⟩

/-- The same page fetched later: same external id, title now "B". -/
def wikiRawTitleB : WikiRaw :=
  ⟨"T", "en", some ⟨some 42, some "B", .absent, some "rev2", none⟩,
    2, none, "x", none, some 11⟩

/-- A raw page record for a second, distinct page (external id 43). -/
def wikiRawOther : WikiRaw :=
  ⟨"U", "en", some ⟨some 43, some "C", .absent, some "rev9", none⟩,
    4, none, "y", none, some 7⟩

/-- A page dimension holding one externally-sourced (positive) id and
one synthetic (negative) id. -/
def pagesFix : List PageDimRow :=
  [⟨1, some 7, "Existing", 0, "en", 0, none, true⟩,
   ⟨2, some (-3), "Seeded", 0, "en", 0, none, true⟩]

/-- Two seed pages absent from `pagesFix`. -/
def seedPagesFix : List SeedPage :=
  [⟨"P1", some "en", some 0⟩, ⟨"P2", none, none⟩]

/-- One further seed page, used for a second loader call. -/
def seedPagesFix2 : List SeedPage :=
  [⟨"P3", some "en", none⟩]

/-- A pipeline environment in which one location's weather fetch task
fails after exhausting its retries, and every other effect succeeds. -/
def envWithFailedWeatherFetch : PipelineEnv :=
  ⟨false, [true], false, [], false, .passed, .passed, false, false,
    true, true⟩

/-- A pipeline environment in which everything before the gate succeeds
and the weather quality suite reports failure. -/
def envWithFailedWeatherQuality : PipelineEnv :=
  ⟨false, [false], false, [false], false, .failed, .passed, false, false,
    true, true⟩

/-- A pipeline environment in which everything up to the gate succeeds
and the refresh of `mart.daily_weather_aggregates` raises. -/
def envWithFailedWeatherRefresh : PipelineEnv :=
  ⟨false, [false], false, [false], false, .passed, .skipped, true, false,
    true, true⟩

/-! ## Helper lemmas -/

theorem insertRevision_inserted (db : WikiDB) (row : RevisionRow)
    (h : (insertRevision db row).2 = true) :
    (insertRevision db row).1.revisions = db.revisions ++ [row] := by
  by_cases hc : db.revisions.any (fun x =>
      x.page_id == row.page_id && x.revision_id == row.revision_id)
  · simp [insertRevision, hc] at h
  · simp [insertRevision, hc]

theorem processWikiRecord_shape (now : Nat) (db : WikiDB) (r : WikiRaw)
    (p : WikiPayload) (hp : r.payload = some p) :
    ∃ db' pid, db'.revisions = db.revisions ∧
      processWikiRecord now db r =
        insertRevision db' (mkRevisionRow pid p r now) := by
  cases hfind : findCurrentPage db (wpidOf p r) r.page_language with
  | none =>
      refine ⟨(insertCurrentPage db (wpidOf p r) (titleOf p r)
        (namespaceOf p.namespace_json) r.page_language now).1,
        (insertCurrentPage db (wpidOf p r) (titleOf p r)
        (namespaceOf p.namespace_json) r.page_language now).2, rfl, ?_⟩
      simp only [processWikiRecord, hp, hfind]
  | some e =>
      by_cases ht : e.page_title = titleOf p r
      · refine ⟨db, e.page_id, rfl, ?_⟩
        simp only [processWikiRecord, hp, hfind, if_pos ht]
      · refine ⟨(insertCurrentPage
          { db with pages := closePages db.pages e.page_id now }
          (wpidOf p r) (titleOf p r) (namespaceOf p.namespace_json)
          r.page_language now).1,
          (insertCurrentPage
          { db with pages := closePages db.pages e.page_id now }
          (wpidOf p r) (titleOf p r) (namespaceOf p.namespace_json)
          r.page_language now).2, rfl, ?_⟩
        simp only [processWikiRecord, hp, hfind, if_neg ht]

theorem find?_eq_head?_filter {α : Type _} (p : α → Bool) (l : List α) :
    l.find? p = (l.filter p).head? := by
  induction l with
  | nil => rfl
  | cons a t ih =>
      cases hpa : p a with
      | true => simp [List.find?_cons, List.filter_cons, hpa]
      | false => simpa [List.find?_cons, List.filter_cons, hpa] using ih

theorem explodeWeather_of_mem_none (hd : HourlyData) (locId : Int)
    (rawId : Nat) (l : List (Option Nat)) (i : Nat) (hmem : none ∈ l) :
    (explodeWeather hd locId rawId l i).1 = [] ∧
    (explodeWeather hd locId rawId l i).2.2 = true := by
  induction l generalizing i with
  | nil => simp at hmem
  | cons a rest ih =>
      cases a with
      | none => exact ⟨rfl, rfl⟩
      | some t =>
          have hrest : none ∈ rest := by simpa using hmem
          have hr := ih hrest (i := i + 1)
          simp only [explodeWeather, hr.2, if_true]
          exact ⟨trivial, trivial⟩

theorem processWeatherRecord_facts_of_noEffect (locs : List LocationRow)
    (acc : WeatherOutcome) (r : WeatherRaw)
    (h : weatherRecordNoEffect locs r = true) :
    (processWeatherRecord locs acc r).facts = acc.facts := by
  cases hp : r.payload with
  | none => simp [processWeatherRecord, hp]
  | some p =>
      cases hh : p.hourly with
      | none => simp [processWeatherRecord, hp, hh]
      | some hd =>
          cases hl : lookupLocation locs r.location_name r.latitude
              r.longitude with
          | none => simp [processWeatherRecord, hp, hh, hl]
          | some locId =>
              by_cases hemp : hd.time.isEmpty
              · simp [processWeatherRecord, hp, hh, hl, hemp]
              · have hemp2 : hd.time.isEmpty = false := by
                  simpa using hemp
                simp only [weatherRecordNoEffect, hp, hh, hl, hemp2,
                  Bool.false_or] at h
                have hmem : none ∈ hd.time := by simpa using h
                have he := explodeWeather_of_mem_none hd locId r.raw_id
                  hd.time 0 hmem
                simp [processWeatherRecord, hp, hh, hl, hemp, he.1]

theorem processWeatherRecord_facts_congr (locs : List LocationRow)
    (a b : WeatherOutcome) (r : WeatherRaw) (hfacts : a.facts = b.facts) :
    (processWeatherRecord locs a r).facts =
    (processWeatherRecord locs b r).facts := by
  cases hp : r.payload with
  | none => simp [processWeatherRecord, hp, hfacts]
  | some p =>
      cases hh : p.hourly with
      | none => simp [processWeatherRecord, hp, hh, hfacts]
      | some hd =>
          cases hl : lookupLocation locs r.location_name r.latitude
              r.longitude with
          | none => simp [processWeatherRecord, hp, hh, hl, hfacts]
          | some locId =>
              by_cases hemp : hd.time.isEmpty <;>
                simp [processWeatherRecord, hp, hh, hl, hemp, hfacts]

theorem foldWeather_facts_congr (locs : List LocationRow)
    (records : List WeatherRaw) (a b : WeatherOutcome)
    (h : a.facts = b.facts) :
    (records.foldl (processWeatherRecord locs) a).facts =
    (records.foldl (processWeatherRecord locs) b).facts := by
  induction records generalizing a b with
  | nil => exact h
  | cons r rs ih =>
      exact ih _ _ (processWeatherRecord_facts_congr locs a b r h)

theorem foldWeather_facts_eraseIdx (locs : List LocationRow)
    (records : List WeatherRaw) (k : Nat) (hk : k < records.length)
    (hfail : weatherRecordNoEffect locs (records.get ⟨k, hk⟩) = true)
    (acc : WeatherOutcome) :
    (records.foldl (processWeatherRecord locs) acc).facts =
    ((records.eraseIdx k).foldl (processWeatherRecord locs) acc).facts := by
  revert hk hfail
  induction records generalizing k acc with
  | nil => intro hk _; exact absurd hk (by simp)
  | cons r rs ih =>
      intro hk hfail
      cases k with
      | zero =>
          exact foldWeather_facts_congr locs rs _ _
            (processWeatherRecord_facts_of_noEffect locs acc r hfail)
      | succ j =>
          exact ih j (processWeatherRecord locs acc r)
            (Nat.lt_of_succ_lt_succ hk) hfail

theorem insertRevision_pages (db : WikiDB) (row : RevisionRow) :
    (insertRevision db row).1.pages = db.pages := by
  unfold insertRevision
  split <;> rfl

theorem insertRevision_nextPageId (db : WikiDB) (row : RevisionRow) :
    (insertRevision db row).1.nextPageId = db.nextPageId := by
  unfold insertRevision
  split <;> rfl

theorem find?_append_of_none {α : Type _} (p : α → Bool) (l1 l2 : List α)
    (h : l1.find? p = none) : (l1 ++ l2).find? p = l2.find? p := by
  induction l1 with
  | nil => rfl
  | cons a t ih =>
      cases hpa : p a with
      | true => simp [List.find?_cons, hpa] at h
      | false =>
          rw [List.find?_cons, hpa] at h
          simpa [List.find?_cons, hpa] using ih h

theorem processWikiRecord_new_page (now : Nat) (db : WikiDB) (r : WikiRaw)
    (p : WikiPayload) (hp : r.payload = some p)
    (hfind : findCurrentPage db (wpidOf p r) r.page_language = none) :
    (processWikiRecord now db r).1.pages =
      db.pages ++ [⟨db.nextPageId, wpidOf p r, titleOf p r,
        namespaceOf p.namespace_json, r.page_language, now, none, true⟩] ∧
    (processWikiRecord now db r).1.nextPageId = db.nextPageId + 1 := by
  constructor
  · simp only [processWikiRecord, hp, hfind, insertRevision_pages]
    rfl
  · simp only [processWikiRecord, hp, hfind, insertRevision_nextPageId]
    rfl

theorem processWikiRecord_title_change (now : Nat) (db : WikiDB)
    (r : WikiRaw) (p : WikiPayload) (e : PageDimRow)
    (hp : r.payload = some p)
    (hfind : findCurrentPage db (wpidOf p r) r.page_language = some e)
    (ht : ¬ e.page_title = titleOf p r) :
    (processWikiRecord now db r).1.pages =
      closePages db.pages e.page_id now ++
        [⟨db.nextPageId, wpidOf p r, titleOf p r,
          namespaceOf p.namespace_json, r.page_language, now, none,
          true⟩] ∧
    (processWikiRecord now db r).1.nextPageId = db.nextPageId + 1 := by
  constructor
  · simp only [processWikiRecord, hp, hfind, if_neg ht,
      insertRevision_pages]
    rfl
  · simp only [processWikiRecord, hp, hfind, if_neg ht,
      insertRevision_nextPageId]
    rfl

theorem processWikiRecord_title_same (now : Nat) (db : WikiDB)
    (r : WikiRaw) (p : WikiPayload) (e : PageDimRow)
    (hp : r.payload = some p)
    (hfind : findCurrentPage db (wpidOf p r) r.page_language = some e)
    (ht : e.page_title = titleOf p r) :
    (processWikiRecord now db r).1.pages = db.pages ∧
    (processWikiRecord now db r).1.nextPageId = db.nextPageId := by
  constructor
  · simp only [processWikiRecord, hp, hfind, if_pos ht,
      insertRevision_pages]
  · simp only [processWikiRecord, hp, hfind, if_pos ht,
      insertRevision_nextPageId]

theorem closePages_wpid (pages : List PageDimRow) (pid : Int) (now : Nat) :
    ∀ row2 ∈ closePages pages pid now,
      ∃ row ∈ pages, row2.wikipedia_page_id = row.wikipedia_page_id := by
  intro row2 hrow2
  rcases List.mem_map.mp hrow2 with ⟨row, hrow, heq⟩
  refine ⟨row, hrow, ?_⟩
  rw [← heq]
  split <;> rfl

theorem filter_eq_of_find?_of_le_one {α : Type _} (p : α → Bool)
    (l : List α) (e : α) (hf : l.find? p = some e)
    (hle : (l.filter p).length ≤ 1) : l.filter p = [e] := by
  have h1 := find?_eq_head?_filter p l
  rw [hf] at h1
  cases hfl : l.filter p with
  | nil => rw [hfl] at h1; simp at h1
  | cons x xs =>
      rw [hfl] at h1
      simp only [List.head?_cons] at h1
      cases xs with
      | nil =>
          rw [← Option.some_inj.mp h1]
      | cons y ys =>
          rw [hfl] at hle
          simp at hle

theorem insertRevision_revisions_subset (db : WikiDB) (row : RevisionRow) :
    ∀ x ∈ db.revisions, x ∈ (insertRevision db row).1.revisions := by
  intro x hx
  unfold insertRevision
  split
  · exact hx
  · simp [hx]

theorem insertRevision_mem (db : WikiDB) (row : RevisionRow) :
    ∃ x ∈ (insertRevision db row).1.revisions,
      x.page_id = row.page_id ∧ x.revision_id = row.revision_id := by
  unfold insertRevision
  by_cases hc : db.revisions.any (fun x =>
      x.page_id == row.page_id && x.revision_id == row.revision_id)
  · rw [if_pos hc]
    obtain ⟨x, hx, hbeq⟩ := List.any_eq_true.mp hc
    refine ⟨x, hx, ?_, ?_⟩
    · exact beq_iff_eq.mp (Bool.and_elim_left hbeq)
    · exact beq_iff_eq.mp (Bool.and_elim_right hbeq)
  · rw [if_neg hc]
    exact ⟨row, by simp, rfl, rfl⟩

theorem filter_currentMatch_closePages (l : List PageDimRow) (pid : Int)
    (t : Nat) (w : Option Int) (lang : String) :
    (closePages l pid t).filter (currentMatch w lang) =
      l.filter (fun row =>
        currentMatch w lang row && !(row.page_id == pid)) := by
  induction l with
  | nil => rfl
  | cons a rest ih =>
      show ((if a.page_id == pid
        then { a with valid_to := some t, is_current := false }
        else a) :: closePages rest pid t).filter (currentMatch w lang) = _
      cases hpa : a.page_id == pid with
      | true =>
          rw [if_pos rfl]
          have hclosed : currentMatch w lang
              { a with valid_to := some t, is_current := false } = false := by
            simp [currentMatch]
          rw [List.filter_cons, hclosed, List.filter_cons]
          simp only [hpa, Bool.not_true, Bool.and_false]
          exact ih
      | false =>
          rw [if_neg (by simp [hpa])]
          rw [List.filter_cons, List.filter_cons]
          simp only [hpa, Bool.not_false, Bool.and_true]
          cases currentMatch w lang a
          · exact ih
          · simpa using ih

theorem map_pageId_closePages (l : List PageDimRow) (pid : Int)
    (t : Nat) :
    (closePages l pid t).map (·.page_id) = l.map (·.page_id) := by
  unfold closePages
  rw [List.map_map]
  apply List.map_congr_left
  intro row hrow
  simp only [Function.comp_apply]
  split <;> rfl

theorem currentMatch_true_iff (w : Int) (lang : String)
    (row : PageDimRow) :
    currentMatch (some w) lang row = true ↔
      row.is_current = true ∧ row.page_language = lang ∧
        row.wikipedia_page_id = some w := by
  simp [currentMatch, and_assoc]

theorem currentRowsFor_append (l1 l2 : List PageDimRow) (w : Option Int)
    (lang : String) :
    currentRowsFor (l1 ++ l2) w lang =
      currentRowsFor l1 w lang ++ currentRowsFor l2 w lang :=
  List.filter_append _ _

/-- One transform iteration starting from a well-formed store: the store
stays well-formed, the processed record's key ends up with exactly one
current row carrying the record's title and a matching revision fact,
every other key's current rows are untouched, and revisions only
grow. -/
theorem processWikiRecord_step (now : Nat) (db : WikiDB) (r : WikiRaw)
    (hg : GoodPages db)
    (hwp : ∀ p, r.payload = some p → (wpidOf p r).isSome = true) :
    GoodPages (processWikiRecord now db r).1 ∧
    Established (processWikiRecord now db r).1 r ∧
    (∀ w lang, ¬ recKey? r = some (w, lang) →
      currentRowsFor (processWikiRecord now db r).1.pages (some w) lang =
        currentRowsFor db.pages (some w) lang) ∧
    (∀ x ∈ db.revisions, x ∈ (processWikiRecord now db r).1.revisions) := by
  obtain ⟨hinv, hnd, hfr⟩ := hg
  cases hp : r.payload with
  | none =>
      have hid : processWikiRecord now db r = (db, false) := by
        simp [processWikiRecord, hp]
      rw [hid]
      refine ⟨⟨hinv, hnd, hfr⟩, ?_, fun _ _ _ => rfl, fun x hx => hx⟩
      intro p hpp
      rw [hp] at hpp
      cases hpp
  | some p =>
      obtain ⟨w0, hw0⟩ := Option.isSome_iff_exists.mp (hwp p hp)
      have hkey : recKey? r = some (w0, r.page_language) := by
        simp [recKey?, hp, hw0]
      have hrevsub : ∀ x ∈ db.revisions,
          x ∈ (processWikiRecord now db r).1.revisions := by
        obtain ⟨db', pid, hrev, heq⟩ := processWikiRecord_shape now db r p hp
        rw [heq]
        intro x hx
        exact insertRevision_revisions_subset db' _ x (hrev ▸ hx)
      have hestrev : ∀ pid : Int,
          (∃ db' : WikiDB, processWikiRecord now db r =
            insertRevision db' (mkRevisionRow pid p r now)) →
          ∃ x ∈ (processWikiRecord now db r).1.revisions,
            x.page_id = pid ∧ x.revision_id = revIdOf p r := by
        rintro pid ⟨db', heq⟩
        rw [heq]
        exact insertRevision_mem db' (mkRevisionRow pid p r now)
      cases hfind : findCurrentPage db (wpidOf p r) r.page_language with
      | none =>
          obtain ⟨hpg, hnx⟩ := processWikiRecord_new_page now db r p hp hfind
          have hnilkey : ∀ w lang,
              (db.pages.filter (currentMatch (some w) lang)).length ≤ 1 →
              True := fun _ _ _ => trivial
          have hfnone : ∀ row ∈ db.pages,
              ¬ currentMatch (wpidOf p r) r.page_language row = true :=
            List.find?_eq_none.mp hfind
          have hN : ∀ w lang, currentMatch (some w) lang
              (⟨db.nextPageId, wpidOf p r, titleOf p r,
                namespaceOf p.namespace_json, r.page_language, now, none,
                true⟩ : PageDimRow) = true ↔
              (r.page_language = lang ∧ w0 = w) := by
            intro w lang
            rw [currentMatch_true_iff]
            simp [hw0]
          have hrows : ∀ w lang,
              currentRowsFor (processWikiRecord now db r).1.pages (some w)
                lang =
              currentRowsFor db.pages (some w) lang ++
                (if r.page_language = lang ∧ w0 = w then
                  [(⟨db.nextPageId, wpidOf p r, titleOf p r,
                    namespaceOf p.namespace_json, r.page_language, now,
                    none, true⟩ : PageDimRow)] else []) := by
            intro w lang
            rw [hpg, currentRowsFor_append]
            congr 1
            by_cases hc : r.page_language = lang ∧ w0 = w
            · rw [if_pos hc]
              show List.filter _ _ = _
              rw [List.filter_cons]
              rw [if_pos ((hN w lang).mpr hc)]
              rfl
            · rw [if_neg hc]
              show List.filter _ _ = _
              rw [List.filter_cons]
              rw [if_neg (by
                intro hcm
                exact hc ((hN w lang).mp hcm))]
              rfl
          have hself : currentRowsFor db.pages (some w0) r.page_language
              = [] := by
            apply List.filter_eq_nil_iff.mpr
            intro row hrow
            rw [hw0] at hfnone
            exact hfnone row hrow
          refine ⟨⟨?_, ?_, ?_⟩, ?_, ?_, hrevsub⟩
          · intro w lang
            rw [hrows]
            by_cases hc : r.page_language = lang ∧ w0 = w
            · rw [if_pos hc]
              rcases hc with ⟨hcl, hcw⟩
              rw [← hcl, ← hcw, hself]
              simp
            · rw [if_neg hc]
              simpa using hinv w lang
          · rw [hpg, List.map_append]
            simp only [List.map_cons, List.map_nil]
            rw [List.nodup_append]
            refine ⟨hnd, by simp, ?_⟩
            intro x hx
            simp only [List.mem_singleton]
            rcases List.mem_map.mp hx with ⟨row, hrow, rfl⟩
            have := hfr row hrow
            intro hcontra
            rw [hcontra] at this
            exact absurd this (lt_irrefl _)
          · rw [hpg, hnx]
            intro row hrow
            rcases List.mem_append.mp hrow with hrow | hrow
            · have := hfr row hrow
              omega
            · rcases List.mem_singleton.mp hrow with rfl
              simp
          · intro p' hp'
            rw [hp] at hp'
            cases hp'
            refine ⟨w0, hw0, ?_⟩
            refine ⟨⟨db.nextPageId, wpidOf p r, titleOf p r,
              namespaceOf p.namespace_json, r.page_language, now, none,
              true⟩, ?_, rfl, ?_⟩
            · rw [hrows]
              rw [if_pos ⟨rfl, rfl⟩, hself]
              rfl
            · apply hestrev
              refine ⟨(insertCurrentPage db (wpidOf p r) (titleOf p r)
                (namespaceOf p.namespace_json) r.page_language now).1, ?_⟩
              simp only [processWikiRecord, hp, hfind]
              rfl
          · intro w lang hne
            rw [hrows]
            have : ¬ (r.page_language = lang ∧ w0 = w) := by
              intro ⟨h1, h2⟩
              exact hne (by rw [hkey, h1, h2])
            rw [if_neg this]
            simp
      | some e =>
          have hecm := List.find?_some hfind
          rw [hw0] at hecm
          rw [currentMatch_true_iff] at hecm
          obtain ⟨hecur, helang, hewpid⟩ := hecm
          have hemem := List.mem_of_find?_eq_some hfind
          have heq_of_pid : ∀ row ∈ db.pages, row.page_id = e.page_id →
              row = e := by
            intro row hrow hpid
            exact List.inj_on_of_nodup_map hnd hrow hemem hpid
          have hsingle : db.pages.filter
              (currentMatch (some w0) r.page_language) = [e] := by
            apply filter_eq_of_find?_of_le_one
            · rw [← hw0]; exact hfind
            · exact hinv w0 r.page_language
          by_cases ht : e.page_title = titleOf p r
          · obtain ⟨hpg, hnx⟩ :=
              processWikiRecord_title_same now db r p e hp hfind ht
            refine ⟨⟨?_, ?_, ?_⟩, ?_, ?_, hrevsub⟩
            · intro w lang
              show (List.filter _ _).length ≤ 1
              rw [hpg]
              exact hinv w lang
            · rw [hpg]
              exact hnd
            · rw [hpg, hnx]
              exact hfr
            · intro p' hp'
              rw [hp] at hp'
              cases hp'
              refine ⟨w0, hw0, e, ?_, ht, ?_⟩
              · show List.filter _ _ = [e]
                rw [hpg]
                exact hsingle
              · apply hestrev
                refine ⟨db, ?_⟩
                simp only [processWikiRecord, hp, hfind, if_pos ht]
            · intro w lang _
              show List.filter (currentMatch (some w) lang)
                (processWikiRecord now db r).1.pages =
                List.filter (currentMatch (some w) lang) db.pages
              rw [hpg]
          · obtain ⟨hpg, hnx⟩ :=
              processWikiRecord_title_change now db r p e hp hfind ht
            have hN : ∀ w lang, currentMatch (some w) lang
                (⟨db.nextPageId, wpidOf p r, titleOf p r,
                  namespaceOf p.namespace_json, r.page_language, now, none,
                  true⟩ : PageDimRow) = true ↔
                (r.page_language = lang ∧ w0 = w) := by
              intro w lang
              rw [currentMatch_true_iff]
              simp [hw0]
            have hclosed_filter : ∀ w lang,
                (closePages db.pages e.page_id now).filter
                  (currentMatch (some w) lang) =
                db.pages.filter (fun row =>
                  currentMatch (some w) lang row &&
                    !(row.page_id == e.page_id)) :=
              fun w lang =>
                filter_currentMatch_closePages db.pages e.page_id now
                  (some w) lang
            have hrows : ∀ w lang,
                currentRowsFor (processWikiRecord now db r).1.pages
                  (some w) lang =
                db.pages.filter (fun row =>
                  currentMatch (some w) lang row &&
                    !(row.page_id == e.page_id)) ++
                (if r.page_language = lang ∧ w0 = w then
                  [(⟨db.nextPageId, wpidOf p r, titleOf p r,
                    namespaceOf p.namespace_json, r.page_language, now,
                    none, true⟩ : PageDimRow)] else []) := by
              intro w lang
              rw [hpg, currentRowsFor_append]
              rw [show currentRowsFor (closePages db.pages e.page_id now)
                (some w) lang = (closePages db.pages e.page_id now).filter
                (currentMatch (some w) lang) from rfl]
              rw [hclosed_filter]
              congr 1
              by_cases hc : r.page_language = lang ∧ w0 = w
              · rw [if_pos hc]
                show List.filter _ _ = _
                rw [List.filter_cons]
                rw [if_pos ((hN w lang).mpr hc)]
                rfl
              · rw [if_neg hc]
                show List.filter _ _ = _
                rw [List.filter_cons]
                rw [if_neg (by
                  intro hcm
                  exact hc ((hN w lang).mp hcm))]
                rfl
            have hself : db.pages.filter (fun row =>
                currentMatch (some w0) r.page_language row &&
                  !(row.page_id == e.page_id)) = [] := by
              apply List.filter_eq_nil_iff.mpr
              intro row hrow
              simp only [Bool.and_eq_true, Bool.not_eq_true',
                beq_eq_false_iff_ne, ne_eq]
              rintro ⟨hcm, hpid⟩
              apply hpid
              apply congrArg PageDimRow.page_id
              have hrowe : row ∈ db.pages.filter
                  (currentMatch (some w0) r.page_language) :=
                List.mem_filter.mpr ⟨hrow, hcm⟩
              rw [hsingle] at hrowe
              rw [List.mem_singleton.mp hrowe]
            have hother : ∀ w lang, ¬ (w0 = w ∧ r.page_language = lang) →
                db.pages.filter (fun row =>
                  currentMatch (some w) lang row &&
                    !(row.page_id == e.page_id)) =
                db.pages.filter (currentMatch (some w) lang) := by
              intro w lang hne
              apply List.filter_congr
              intro row hrow
              cases hpid : row.page_id == e.page_id with
              | false => simp
              | true =>
                  have hrowe : row = e :=
                    heq_of_pid row hrow (beq_iff_eq.mp hpid)
                  subst hrowe
                  have hcm : currentMatch (some w) lang row = false := by
                    rw [Bool.eq_false_iff]
                    intro hcm
                    rw [currentMatch_true_iff] at hcm
                    apply hne
                    constructor
                    · rw [hewpid] at hcm
                      exact (Option.some_inj.mp hcm.2.2)
                    · rw [← helang]
                      exact hcm.2.1
                  simp [hcm]
            refine ⟨⟨?_, ?_, ?_⟩, ?_, ?_, hrevsub⟩
            · intro w lang
              show (List.filter _ _).length ≤ 1
              rw [show (List.filter (currentMatch (some w) lang)
                (processWikiRecord now db r).1.pages) =
                currentRowsFor (processWikiRecord now db r).1.pages
                  (some w) lang from rfl]
              rw [hrows]
              by_cases hc : r.page_language = lang ∧ w0 = w
              · rw [if_pos hc]
                rcases hc with ⟨hcl, hcw⟩
                rw [← hcl, ← hcw, hself]
                simp
              · rw [if_neg hc]
                rw [hother w lang (by tauto)]
                simpa [currentRowsFor] using hinv w lang
            · rw [hpg, List.map_append, map_pageId_closePages]
              simp only [List.map_cons, List.map_nil]
              rw [List.nodup_append]
              refine ⟨hnd, by simp, ?_⟩
              intro x hx
              simp only [List.mem_singleton]
              rcases List.mem_map.mp hx with ⟨row, hrow, rfl⟩
              have := hfr row hrow
              intro hcontra
              rw [hcontra] at this
              exact absurd this (lt_irrefl _)
            · rw [hpg, hnx]
              intro row hrow
              rcases List.mem_append.mp hrow with hrow | hrow
              · rcases List.mem_map.mp hrow with ⟨row0, hrow0, rfl⟩
                have := hfr row0 hrow0
                split <;> simp <;> omega
              · rcases List.mem_singleton.mp hrow with rfl
                simp
            · intro p' hp'
              rw [hp] at hp'
              cases hp'
              refine ⟨w0, hw0, ?_⟩
              refine ⟨⟨db.nextPageId, wpidOf p r, titleOf p r,
                namespaceOf p.namespace_json, r.page_language, now, none,
                true⟩, ?_, rfl, ?_⟩
              · rw [hrows]
                rw [if_pos ⟨rfl, rfl⟩, hself]
                rfl
              · apply hestrev
                refine ⟨(insertCurrentPage
                  { db with pages := closePages db.pages e.page_id now }
                  (wpidOf p r) (titleOf p r) (namespaceOf p.namespace_json)
                  r.page_language now).1, ?_⟩
                simp only [processWikiRecord, hp, hfind, if_neg ht]
                rfl
            · intro w lang hne
              rw [hrows]
              have hne2 : ¬ (r.page_language = lang ∧ w0 = w) := by
                intro ⟨h1, h2⟩
                exact hne (by rw [hkey, h1, h2])
              rw [if_neg hne2]
              rw [hother w lang (by tauto)]
              simp [currentRowsFor]

/-- A record the store already reflects is a no-op: the dimension
lookup returns the one current row, the title matches, and the revision
insert hits the `(page_id, revision_id)` conflict. -/
theorem processWikiRecord_noop (now : Nat) (db : WikiDB) (r : WikiRaw)
    (hest : Established db r) :
    processWikiRecord now db r = (db, false) := by
  cases hp : r.payload with
  | none => simp [processWikiRecord, hp]
  | some p =>
      obtain ⟨w0, hw0, e, hcur, htitle, x, hx, hxpid, hxrid⟩ := hest p hp
      have hfind : findCurrentPage db (wpidOf p r) r.page_language
          = some e := by
        rw [hw0]
        show db.pages.find? _ = some e
        rw [find?_eq_head?_filter]
        rw [show db.pages.filter
          (currentMatch (some w0) r.page_language) = [e] from hcur]
        rfl
      simp only [processWikiRecord, hp, hfind, if_pos htitle]
      unfold insertRevision
      rw [if_pos]
      apply List.any_eq_true.mpr
      refine ⟨x, hx, ?_⟩
      simp [mkRevisionRow, hxpid, hxrid]

/-- `Established` transfers to a later store whose current rows at the
record's key are unchanged and whose revisions only grew. -/
theorem Established_mono (db1 db2 : WikiDB) (r : WikiRaw)
    (hcur : ∀ p, r.payload = some p → ∀ w, wpidOf p r = some w →
      currentRowsFor db2.pages (some w) r.page_language =
      currentRowsFor db1.pages (some w) r.page_language)
    (hrev : ∀ x ∈ db1.revisions, x ∈ db2.revisions)
    (h : Established db1 r) : Established db2 r := by
  intro p hp
  obtain ⟨w0, hw0, e, hcur1, htitle, x, hx, hxpid, hxrid⟩ := h p hp
  refine ⟨w0, hw0, e, ?_, htitle, x, hrev x hx, hxpid, hxrid⟩
  rw [hcur p hp w0 hw0]
  exact hcur1

theorem wikiFold_spec (now : Nat) (records : List WikiRaw) :
    ∀ acc : WikiOutcome,
      (records.foldl (wikiStep now) acc).db =
        (transform_wikipedia_to_fact now acc.db records).db ∧
      (records.foldl (wikiStep now) acc).revisions_inserted =
        acc.revisions_inserted +
          (transform_wikipedia_to_fact now acc.db records).revisions_inserted
      := by
  induction records with
  | nil => intro acc; exact ⟨rfl, rfl⟩
  | cons r rs ih =>
      intro acc
      have h1 := ih (wikiStep now acc r)
      have h2 := ih (wikiStep now ⟨acc.db, 0, 0⟩ r)
      constructor
      · show (rs.foldl (wikiStep now) (wikiStep now acc r)).db = _
        rw [h1.1]
        show _ = (rs.foldl (wikiStep now)
          (wikiStep now ⟨acc.db, 0, 0⟩ r)).db
        rw [h2.1]
        rfl
      · show (rs.foldl (wikiStep now)
          (wikiStep now acc r)).revisions_inserted = _
        rw [h1.2]
        show _ = acc.revisions_inserted + (rs.foldl (wikiStep now)
          (wikiStep now ⟨acc.db, 0, 0⟩ r)).revisions_inserted
        rw [h2.2]
        show (wikiStep now acc r).revisions_inserted + _ = _
        show _ = acc.revisions_inserted +
          ((wikiStep now ⟨acc.db, 0, 0⟩ r).revisions_inserted + _)
        simp only [wikiStep]
        omega

/-- The first run over a well-formed store with pairwise-distinct
record keys: the store stays well-formed, every record ends up
established, untouched keys keep their current rows, and revisions only
grow. -/
theorem transformWiki_run_spec (now : Nat) (records : List WikiRaw)
    (db : WikiDB) (hg : GoodPages db)
    (hwp : ∀ r ∈ records, ∀ p, r.payload = some p →
      (wpidOf p r).isSome = true)
    (hkeys : (records.filterMap recKey?).Nodup) :
    GoodPages (transform_wikipedia_to_fact now db records).db ∧
    (∀ r ∈ records,
      Established (transform_wikipedia_to_fact now db records).db r) ∧
    (∀ w lang, ¬ (w, lang) ∈ records.filterMap recKey? →
      currentRowsFor (transform_wikipedia_to_fact now db
        records).db.pages (some w) lang =
      currentRowsFor db.pages (some w) lang) ∧
    (∀ x ∈ db.revisions,
      x ∈ (transform_wikipedia_to_fact now db records).db.revisions) := by
  induction records generalizing db with
  | nil => exact ⟨hg, by simp, fun _ _ _ => rfl, fun x hx => hx⟩
  | cons r rs ih =>
      obtain ⟨hgs, hests, hothers, hrevs⟩ :=
        processWikiRecord_step now db r hg (hwp r (by simp))
      have hdbeq : (transform_wikipedia_to_fact now db (r :: rs)).db =
          (transform_wikipedia_to_fact now
            (processWikiRecord now db r).1 rs).db := by
        show (rs.foldl (wikiStep now) (wikiStep now ⟨db, 0, 0⟩ r)).db = _
        rw [(wikiFold_spec now rs (wikiStep now ⟨db, 0, 0⟩ r)).1]
        rfl
      have hwp' : ∀ r' ∈ rs, ∀ p, r'.payload = some p →
          (wpidOf p r').isSome = true :=
        fun r' hr' => hwp r' (by simp [hr'])
      have hkeys' : (rs.filterMap recKey?).Nodup := by
        cases hk : recKey? r with
        | none => rw [List.filterMap_cons_none hk] at hkeys; exact hkeys
        | some k =>
            rw [List.filterMap_cons_some hk] at hkeys
            exact hkeys.of_cons
      have hknotin : ∀ k, recKey? r = some k →
          ¬ k ∈ rs.filterMap recKey? := by
        intro k hk
        rw [List.filterMap_cons_some hk] at hkeys
        exact (List.nodup_cons.mp hkeys).1
      obtain ⟨ihg, ihest, ihother, ihrev⟩ :=
        ih (processWikiRecord now db r).1 hgs hwp' hkeys'
      rw [hdbeq]
      refine ⟨ihg, ?_, ?_, ?_⟩
      · intro r' hr'
        rcases List.mem_cons.mp hr' with rfl | hr'
        · cases hp : r'.payload with
          | none =>
              intro p hpp
              rw [hp] at hpp
              cases hpp
          | some p =>
              obtain ⟨w0, hw0⟩ :=
                Option.isSome_iff_exists.mp (hwp r' (by simp) p hp)
              have hk : recKey? r' = some (w0, r'.page_language) := by
                simp [recKey?, hp, hw0]
              apply Established_mono (processWikiRecord now db r').1
              · intro p2 hp2 w2 hw2
                rw [hp] at hp2
                cases hp2
                rw [hw0] at hw2
                cases hw2
                apply ihother
                intro hmem
                exact hknotin _ hk hmem
              · exact ihrev
              · exact hests
        · exact ihest r' hr'
      · intro w lang hne
        have hne1 : ¬ (w, lang) ∈ rs.filterMap recKey? := by
          intro hmem
          apply hne
          cases hk : recKey? r with
          | none => rw [List.filterMap_cons_none hk]; exact hmem
          | some k =>
              rw [List.filterMap_cons_some hk]
              exact List.mem_cons_of_mem k hmem
        have hne2 : ¬ recKey? r = some (w, lang) := by
          intro hk
          apply hne
          rw [List.filterMap_cons_some hk]
          exact List.mem_cons_self _ _
        rw [ihother w lang hne1, hothers w lang hne2]
      · intro x hx
        exact ihrev x (hrevs x hx)

/-- A run over a store that already reflects every record changes
nothing and inserts zero revisions. -/
theorem transformWiki_noop_run (now : Nat) (records : List WikiRaw)
    (db : WikiDB) (hest : ∀ r ∈ records, Established db r) :
    (transform_wikipedia_to_fact now db records).db = db ∧
    (transform_wikipedia_to_fact now db
      records).revisions_inserted = 0 := by
  induction records with
  | nil => exact ⟨rfl, rfl⟩
  | cons r rs ih =>
      have hnoop := processWikiRecord_noop now db r (hest r (by simp))
      have hstep : wikiStep now ⟨db, 0, 0⟩ r =
          ⟨db, if r.payload.isSome then 1 else 0, 0⟩ := by
        simp [wikiStep, hnoop]
      have hih := ih (fun r' hr' => hest r' (by simp [hr']))
      have hfold := wikiFold_spec now rs (wikiStep now ⟨db, 0, 0⟩ r)
      constructor
      · show (rs.foldl (wikiStep now) (wikiStep now ⟨db, 0, 0⟩ r)).db = db
        rw [hfold.1, hstep]
        exact hih.1
      · show (rs.foldl (wikiStep now)
          (wikiStep now ⟨db, 0, 0⟩ r)).revisions_inserted = 0
        rw [hfold.2, hstep]
        show 0 + (transform_wikipedia_to_fact now db
          rs).revisions_inserted = 0
        rw [hih.2]

/-! ## Claim theorems -/

/-- C2 counterexample: a location whose hourly arrays hold three
entries with a malformed timestamp at index 1.  The claim requires the
row already upserted for index 0 to remain committed and the entry at
index 2 to still be processed; the code instead rolls the location's
transaction back and breaks out of the loop, so no fact row at all is
committed for the location. -/
theorem weather_row_failure_cex :
    (transform_weather_to_fact locsFixture []
      [weatherRawMalformedMiddle]).facts = [] ∧
    hourlyMalformedMiddle.time.length = 3 ∧
    hourlyMalformedMiddle.time.getD 0 none = some 100 ∧
    hourlyMalformedMiddle.time.getD 1 none = none ∧
    hourlyMalformedMiddle.time.getD 2 none = some 102 := by
  refine ⟨?_, rfl, rfl, rfl, rfl⟩
  decide

/-- C2 (amended): a failure while processing a single array entry
aborts that location's batch — the per-location transaction is rolled
back (rows upserted before the failing index are not committed) and the
remaining entries are skipped — while the transform continues with the
remaining locations, whose results are unaffected. -/
theorem weather_row_failure_aborts_location (locs : List LocationRow)
    (facts0 : List WeatherFactRow) (r : WeatherRaw)
    (rest : List WeatherRaw) (p : WeatherPayload) (hd : HourlyData)
    (hp : r.payload = some p) (hh : p.hourly = some hd)
    (hbad : none ∈ hd.time) :
    (processWeatherRecord locs ⟨facts0, 0, 0⟩ r).facts = facts0 ∧
    (transform_weather_to_fact locs facts0 (r :: rest)).facts =
    (transform_weather_to_fact locs facts0 rest).facts := by
  have hne : weatherRecordNoEffect locs r = true := by
    have hcont : hd.time.contains none = true := by simpa using hbad
    cases hl : lookupLocation locs r.location_name r.latitude
        r.longitude with
    | none => simp [weatherRecordNoEffect, hp, hh, hl]
    | some locId =>
        simp only [weatherRecordNoEffect, hp, hh, hl]
        simp [hbad]
  constructor
  · exact processWeatherRecord_facts_of_noEffect locs _ r hne
  · exact foldWeather_facts_eraseIdx locs (r :: rest) 0 (by simp) hne
      ⟨facts0, 0, 0⟩

/-- Witness for the amended C2: the malformed-middle location commits
nothing while a healthy location in the same run is unaffected. -/
theorem weather_row_failure_aborts_location_witness :
    (processWeatherRecord locsFixture ⟨[], 0, 0⟩
      weatherRawMalformedMiddle).facts = [] ∧
    (transform_weather_to_fact locsFixture []
      [weatherRawMalformedMiddle, weatherRawGood]).facts =
    (transform_weather_to_fact locsFixture [] [weatherRawGood]).facts :=
  weather_row_failure_aborts_location locsFixture [] weatherRawMalformedMiddle
    [weatherRawGood] ⟨some hourlyMalformedMiddle⟩ hourlyMalformedMiddle
    rfl rfl (by decide)

/-- C5: a failure confined to one raw record — a skipped record (NULL
payload, missing hourly key, unknown location, empty time array) or a
rolled-back batch (malformed entry) — never affects any other location:
the committed fact table equals the one produced by the same run without
that record, every other location being processed at its own
transaction boundary. -/
theorem weather_location_failure_isolated (locs : List LocationRow)
    (facts0 : List WeatherFactRow) (records : List WeatherRaw) (k : Nat)
    (hk : k < records.length)
    (hfail : weatherRecordNoEffect locs (records.get ⟨k, hk⟩) = true) :
    (transform_weather_to_fact locs facts0 records).facts =
    (transform_weather_to_fact locs facts0 (records.eraseIdx k)).facts :=
  foldWeather_facts_eraseIdx locs records k hk hfail ⟨facts0, 0, 0⟩

/-- Witness for C5: a record with a missing hourly key leaves the other
location's committed rows exactly as in a run without it. -/
theorem weather_location_failure_isolated_witness :
    (transform_weather_to_fact locsFixture []
      [weatherRawNoHourly, weatherRawGood]).facts =
    (transform_weather_to_fact locsFixture []
      ([weatherRawNoHourly, weatherRawGood].eraseIdx 0)).facts :=
  weather_location_failure_isolated locsFixture []
    [weatherRawNoHourly, weatherRawGood] 0 (by decide) rfl

/-- C9: for every non-null wind speed value `w` (in km/h) at hourly
index `i`, the fact row built and upserted by `transform_weather_to_fact`
stores the wind speed in m/s as exactly `w / 3.6`; a null wind entry
yields a null fact field, not an error. -/
theorem weather_wind_speed_conversion (hd : HourlyData) (locId : Int)
    (rawId i t : Nat) :
    (∀ w : ℚ, hd.windspeed_10m.getD i none = some w →
      (mkWeatherRow hd locId rawId i t).wind_speed_mps = some (w / 3.6)) ∧
    (hd.windspeed_10m.getD i none = none →
      (mkWeatherRow hd locId rawId i t).wind_speed_mps = none) := by
  constructor
  · intro w hw
    show (hd.windspeed_10m.getD i none).map (fun w => w / 3.6)
      = some (w / 3.6)
    rw [hw]
    rfl
  · intro hw
    show (hd.windspeed_10m.getD i none).map (fun w => w / 3.6) = none
    rw [hw]
    rfl

/-- Witness for C9 at the spec's example: 12.5 km/h yields exactly
12.5 / 3.6 = 125/36 m/s. -/
theorem weather_wind_speed_conversion_witness :
    (mkWeatherRow ⟨[some 0], [], [], [some (12.5 : ℚ)], [], []⟩
        1 7 0 0).wind_speed_mps = some ((12.5 : ℚ) / 3.6) ∧
    (12.5 : ℚ) / 3.6 = 125 / 36 := by
  constructor
  · exact (weather_wind_speed_conversion _ 1 7 0 0).1 12.5 rfl
  · norm_num

/-- C10: when the latest raw page record carries a NULL
`revision_size_bytes`, the Wikipedia transform still inserts the
revision fact, with `content_len = 0`, and that value violates the
quality gate's content-length rule (`content_len ≥ 1`). -/
theorem revision_null_size_inserts_zero_content_len (now : Nat)
    (db : WikiDB) (r : WikiRaw) (p : WikiPayload)
    (hp : r.payload = some p) (hsize : r.revision_size_bytes = none)
    (hins : (processWikiRecord now db r).2 = true) :
    ∃ row : RevisionRow,
      (processWikiRecord now db r).1.revisions = db.revisions ++ [row] ∧
      row.content_len = 0 ∧
      wikipedia_content_len_expectation row.content_len = false := by
  obtain ⟨db', pid, hrev, heq⟩ := processWikiRecord_shape now db r p hp
  rw [heq] at hins ⊢
  refine ⟨mkRevisionRow pid p r now, ?_, ?_, ?_⟩
  · rw [insertRevision_inserted _ _ hins, hrev]
  · simp [mkRevisionRow, hsize]
  · simp [mkRevisionRow, hsize, wikipedia_content_len_expectation]

/-- Witness for C10: a fresh store plus one raw record with NULL size
yields exactly one revision fact row, with `content_len = 0`, failing
the gate rule. -/
theorem revision_null_size_witness :
    (processWikiRecord 10 ⟨[], [], 1⟩ wikiRawNullSize).1.revisions.map
      (fun x => x.content_len) = [0] ∧
    wikipedia_content_len_expectation 0 = false := by
  obtain ⟨row, h1, h2, h3⟩ :=
    revision_null_size_inserts_zero_content_len 10 ⟨[], [], 1⟩
      wikiRawNullSize
      ⟨some 5, some "Boston", .absent, some "r1", none⟩ rfl rfl rfl
  rw [h1]
  refine ⟨by simp [h2], ?_⟩
  rw [← h2]
  exact h3

theorem countP_refresh_weather_fetch (n : Nat) :
    List.countP (isRefreshEvent ∘ Event.weather_fetch) (List.range n)
      = 0 := by
  simp [List.countP_eq_zero, isRefreshEvent, Function.comp]

theorem countP_refresh_wikipedia_fetch (n : Nat) :
    List.countP (isRefreshEvent ∘ Event.wikipedia_fetch) (List.range n)
      = 0 := by
  simp [List.countP_eq_zero, isRefreshEvent, Function.comp]

/-- C1: in every execution in which one of the two data-quality
checkpoint tasks raises (the run reaches the gate and a suite reports
failure), no materialized-view refresh is attempted and the pipeline run
terminates in the failed state. -/
theorem quality_gate_failure_blocks_refresh (env : PipelineEnv)
    (h : qualityGateRaises env) :
    (daily_pipeline env).1.all (fun e => !isRefreshEvent e) = true ∧
    runFailed (daily_pipeline env) = true := by
  obtain ⟨h1, h2, h3, h4, h5, h6⟩ := h
  rcases h6 with h6 | h6
  · constructor
    · simp [daily_pipeline, h1, h2, h3, h4, h5, h6,
        run_weather_data_quality_checkpoint, isRefreshEvent, runFailed]
    · simp [daily_pipeline, h1, h2, h3, h4, h5, h6,
        run_weather_data_quality_checkpoint, runFailed]
  · cases hw : env.weather_quality with
    | failed =>
        constructor
        · simp [daily_pipeline, h1, h2, h3, h4, h5, hw,
            run_weather_data_quality_checkpoint, isRefreshEvent, runFailed]
        · simp [daily_pipeline, h1, h2, h3, h4, h5, hw,
            run_weather_data_quality_checkpoint, runFailed]
    | passed =>
        constructor
        · simp [daily_pipeline, h1, h2, h3, h4, h5, h6, hw,
            run_weather_data_quality_checkpoint,
            run_wikipedia_data_quality_checkpoint, isRefreshEvent, runFailed]
        · simp [daily_pipeline, h1, h2, h3, h4, h5, h6, hw,
            run_weather_data_quality_checkpoint,
            run_wikipedia_data_quality_checkpoint, runFailed]
    | skipped =>
        constructor
        · simp [daily_pipeline, h1, h2, h3, h4, h5, h6, hw,
            run_weather_data_quality_checkpoint,
            run_wikipedia_data_quality_checkpoint, isRefreshEvent, runFailed]
        · simp [daily_pipeline, h1, h2, h3, h4, h5, h6, hw,
            run_weather_data_quality_checkpoint,
            run_wikipedia_data_quality_checkpoint, runFailed]

/-- Witness for C1: with everything healthy except a failing weather
quality suite, the run attempts no refresh and ends failed. -/
theorem quality_gate_failure_blocks_refresh_witness :
    (daily_pipeline envWithFailedWeatherQuality).1.all
      (fun e => !isRefreshEvent e) = true ∧
    runFailed (daily_pipeline envWithFailedWeatherQuality) = true :=
  quality_gate_failure_blocks_refresh envWithFailedWeatherQuality
    ⟨rfl, rfl, rfl, rfl, rfl, Or.inl rfl⟩

/-- C7: whenever the refresh stage is reached, a failing view refresh
yields a structured `status = "failed"` result with the error recorded
(never an exception), the pipeline still reaches its success terminal
state, and both views' refreshes are attempted regardless of the other's
outcome. -/
theorem refresh_failure_isolated (env : PipelineEnv)
    (h : reachesRefreshStage env) :
    (daily_pipeline env).1.countP isRefreshEvent = 2 ∧
    (daily_pipeline env).2 = .ok
      { weather_fetch_count := env.weather_fetch_fails.length
        wikipedia_fetch_count := env.wikipedia_fetch_fails.length
        quality_all_passed := true
        refresh_results :=
          [refresh_materialized_view env.weather_view_refresh_fails
            env.weather_view_has_unique_index
            "mart.daily_weather_aggregates",
           refresh_materialized_view env.wikipedia_view_refresh_fails
            env.wikipedia_view_has_unique_index
            "mart.daily_wikipedia_page_stats"]
        views_refreshed := 2
        pipeline_status := "success" } ∧
    (env.weather_view_refresh_fails = true →
      (refresh_materialized_view env.weather_view_refresh_fails
        env.weather_view_has_unique_index
        "mart.daily_weather_aggregates").status = "failed" ∧
      (refresh_materialized_view env.weather_view_refresh_fails
        env.weather_view_has_unique_index
        "mart.daily_weather_aggregates").error.isSome = true) ∧
    (env.wikipedia_view_refresh_fails = true →
      (refresh_materialized_view env.wikipedia_view_refresh_fails
        env.wikipedia_view_has_unique_index
        "mart.daily_wikipedia_page_stats").status = "failed" ∧
      (refresh_materialized_view env.wikipedia_view_refresh_fails
        env.wikipedia_view_has_unique_index
        "mart.daily_wikipedia_page_stats").error.isSome = true) := by
  obtain ⟨h1, h2, h3, h4, h5, h6, h7⟩ := h
  have hquality : ∀ q : QualityOutcome, q ≠ .failed →
      ∀ fn : QualityOutcome → Except String QualityOutcome,
      (fn = run_weather_data_quality_checkpoint ∨
       fn = run_wikipedia_data_quality_checkpoint) → fn q = .ok q := by
    intro q hq fn hfn
    rcases hfn with rfl | rfl <;> cases q <;> simp [
      run_weather_data_quality_checkpoint,
      run_wikipedia_data_quality_checkpoint] at hq ⊢
  refine ⟨?_, ?_, ?_, ?_⟩
  · cases hw : env.weather_quality <;> cases hk : env.wikipedia_quality <;>
      first
      | (exact absurd hw h6)
      | (exact absurd hk h7)
      | (simp [daily_pipeline, h1, h2, h3, h4, h5, hw, hk,
          run_weather_data_quality_checkpoint,
          run_wikipedia_data_quality_checkpoint, isRefreshEvent,
          countP_refresh_weather_fetch, countP_refresh_wikipedia_fetch])
  · cases hw : env.weather_quality <;> cases hk : env.wikipedia_quality <;>
      first
      | (exact absurd hw h6)
      | (exact absurd hk h7)
      | (simp [daily_pipeline, h1, h2, h3, h4, h5, hw, hk,
          run_weather_data_quality_checkpoint,
          run_wikipedia_data_quality_checkpoint])
  · intro hf
    simp [refresh_materialized_view, hf]
  · intro hf
    simp [refresh_materialized_view, hf]

/-- Witness for C7: with the weather view's refresh failing and the
wikipedia view's succeeding, the run still succeeds, attempts both
refreshes, and records the structured failure. -/
theorem refresh_failure_isolated_witness :
    (daily_pipeline envWithFailedWeatherRefresh).1.countP
      isRefreshEvent = 2 ∧
    (daily_pipeline envWithFailedWeatherRefresh).2 = .ok
      { weather_fetch_count := 1
        wikipedia_fetch_count := 1
        quality_all_passed := true
        refresh_results :=
          [⟨"mart.daily_weather_aggregates", "failed", none,
            some "refresh error"⟩,
           ⟨"mart.daily_wikipedia_page_stats", "success",
            some "CONCURRENTLY", none⟩]
        views_refreshed := 2
        pipeline_status := "success" } ∧
    ("failed" = "failed") := by
  have h := refresh_failure_isolated envWithFailedWeatherRefresh
    ⟨rfl, rfl, rfl, rfl, rfl, by decide, by decide⟩
  exact ⟨h.1, h.2.1, (h.2.2.1 rfl).1⟩

/-- C6 (evaluating the code at the failing input): with a single
location whose fetch task has exhausted its retries and failed, and
everything else healthy, the flow never runs the weather fan-in
transform (the failed upstream future blocks it) and the run ends
failed — the fetch failure does prevent
`transform_weather_to_fact_task` from executing. -/
theorem weather_transform_blocked_by_failed_fetch :
    (daily_pipeline envWithFailedWeatherFetch).1 =
      [Event.location_upsert, Event.weather_fetch 0] ∧
    Event.weather_transform ∉ (daily_pipeline envWithFailedWeatherFetch).1 ∧
    runFailed (daily_pipeline envWithFailedWeatherFetch) = true := by
  refine ⟨rfl, by decide, rfl⟩

/-- C3: when a current dimension row exists for an external page id and
language and the extracted title differs, the existing row is closed
(`valid_to = now`, `is_current = false`) and a fresh current row is
inserted with the new title, a new surrogate `page_id`, `valid_to`
NULL and the same external id: after two runs whose raw titles differ,
exactly two dimension rows exist for that external id — one closed and
one current — with differing titles. -/
theorem wikipedia_scd_title_change (now1 now2 : Nat) (db0 : WikiDB)
    (r1 r2 : WikiRaw) (p1 p2 : WikiPayload) (w : Int) (lang A B : String)
    (hclean : ∀ row ∈ db0.pages, row.wikipedia_page_id ≠ some w)
    (hp1 : r1.payload = some p1) (hw1 : wpidOf p1 r1 = some w)
    (ht1 : titleOf p1 r1 = A) (hl1 : r1.page_language = lang)
    (hp2 : r2.payload = some p2) (hw2 : wpidOf p2 r2 = some w)
    (ht2 : titleOf p2 r2 = B) (hl2 : r2.page_language = lang)
    (hAB : A ≠ B) :
    ((transform_wikipedia_to_fact now2
        (transform_wikipedia_to_fact now1 db0 [r1]).db [r2]).db).pages.filter
      (fun row => row.wikipedia_page_id == some w) =
    [⟨db0.nextPageId, some w, A, namespaceOf p1.namespace_json, lang,
       now1, some now2, false⟩,
     ⟨db0.nextPageId + 1, some w, B, namespaceOf p2.namespace_json, lang,
       now2, none, true⟩] ∧
    db0.nextPageId ≠ db0.nextPageId + 1 ∧ A ≠ B := by
  have hfind1 : findCurrentPage db0 (wpidOf p1 r1) r1.page_language
      = none := by
    apply List.find?_eq_none.mpr
    intro row hrow
    simp [currentMatch, hw1, hclean row hrow]
  obtain ⟨h1p, h1n⟩ := processWikiRecord_new_page now1 db0 r1 p1 hp1 hfind1
  rw [hw1, ht1, hl1] at h1p
  have hdb1 : (transform_wikipedia_to_fact now1 db0 [r1]).db =
      (processWikiRecord now1 db0 r1).1 := rfl
  have hfind2 : findCurrentPage (processWikiRecord now1 db0 r1).1
      (wpidOf p2 r2) r2.page_language =
      some ⟨db0.nextPageId, some w, A, namespaceOf p1.namespace_json,
        lang, now1, none, true⟩ := by
    rw [hw2, hl2]
    unfold findCurrentPage
    rw [h1p]
    rw [find?_append_of_none _ _ _ (by
      apply List.find?_eq_none.mpr
      intro row hrow
      simp [currentMatch, hclean row hrow])]
    simp [List.find?_cons, currentMatch]
  obtain ⟨h2p, h2n⟩ := processWikiRecord_title_change now2
    (processWikiRecord now1 db0 r1).1 r2 p2 _ hp2 hfind2
    (by simpa [ht2] using hAB)
  rw [hw2, ht2, hl2, h1p, h1n] at h2p
  have hdb2 : (transform_wikipedia_to_fact now2
      (transform_wikipedia_to_fact now1 db0 [r1]).db [r2]).db =
      (processWikiRecord now2 (processWikiRecord now1 db0 r1).1 r2).1 := by
    rw [hdb1]
    rfl
  refine ⟨?_, by omega, hAB⟩
  rw [hdb2, h2p]
  have hclose : closePages (db0.pages ++
      [(⟨db0.nextPageId, some w, A, namespaceOf p1.namespace_json, lang,
        now1, none, true⟩ : PageDimRow)]) db0.nextPageId now2 =
      closePages db0.pages db0.nextPageId now2 ++
      [⟨db0.nextPageId, some w, A, namespaceOf p1.namespace_json, lang,
        now1, some now2, false⟩] := by
    unfold closePages
    rw [List.map_append]
    simp
  rw [hclose]
  rw [List.filter_append, List.filter_append]
  have hnil : (closePages db0.pages db0.nextPageId now2).filter
      (fun row => row.wikipedia_page_id == some w) = [] := by
    apply List.filter_eq_nil_iff.mpr
    intro row2 hrow2
    obtain ⟨row, hrow, heq⟩ := closePages_wpid db0.pages db0.nextPageId
      now2 row2 hrow2
    simp [heq, hclean row hrow]
  rw [hnil]
  simp

/-- C4: re-running `transform_wikipedia_to_fact` over raw data
unchanged since a first run is a no-op on the stores: no revision fact
is added (the `(page_id, revision_id)` conflict is silently ignored),
no dimension row is created or modified, and each processed natural key
keeps exactly one current dimension row.  The store is assumed
well-formed (the §3 invariant plus distinct surrogate ids) and the
selected records carry pairwise-distinct non-NULL external keys. -/
theorem wikipedia_transform_idempotent (now1 now2 : Nat) (db0 : WikiDB)
    (records : List WikiRaw) (hg : GoodPages db0)
    (hwp : ∀ r ∈ records, ∀ p, r.payload = some p →
      (wpidOf p r).isSome = true)
    (hkeys : (records.filterMap recKey?).Nodup) :
    (transform_wikipedia_to_fact now2
      (transform_wikipedia_to_fact now1 db0 records).db records).db =
      (transform_wikipedia_to_fact now1 db0 records).db ∧
    (transform_wikipedia_to_fact now2
      (transform_wikipedia_to_fact now1 db0 records).db
      records).revisions_inserted = 0 ∧
    (∀ r ∈ records, ∀ p, r.payload = some p →
      (currentRowsFor (transform_wikipedia_to_fact now1 db0
        records).db.pages (wpidOf p r) r.page_language).length = 1) := by
  obtain ⟨hg1, hest1, hother1, hrev1⟩ :=
    transformWiki_run_spec now1 records db0 hg hwp hkeys
  have hno := transformWiki_noop_run now2 records
    (transform_wikipedia_to_fact now1 db0 records).db hest1
  refine ⟨hno.1, hno.2, ?_⟩
  intro r hr p hp
  obtain ⟨w0, hw0, e, hcur, htitle, x, hx, h1, h2⟩ := hest1 r hr p hp
  rw [hw0, hcur]
  rfl

/-- Witness for C4: two distinct pages, first run from an empty store,
second run identical — the store is unchanged, zero revisions are
inserted, and external id 42 has exactly one current row. -/
theorem wikipedia_transform_idempotent_witness :
    (transform_wikipedia_to_fact 200
      (transform_wikipedia_to_fact 100 ⟨[], [], 5⟩
        [wikiRawTitleA, wikiRawOther]).db
      [wikiRawTitleA, wikiRawOther]).db =
      (transform_wikipedia_to_fact 100 ⟨[], [], 5⟩
        [wikiRawTitleA, wikiRawOther]).db ∧
    (transform_wikipedia_to_fact 200
      (transform_wikipedia_to_fact 100 ⟨[], [], 5⟩
        [wikiRawTitleA, wikiRawOther]).db
      [wikiRawTitleA, wikiRawOther]).revisions_inserted = 0 ∧
    (currentRowsFor (transform_wikipedia_to_fact 100 ⟨[], [], 5⟩
      [wikiRawTitleA, wikiRawOther]).db.pages (some 42)
      "en").length = 1 := by
  have h := wikipedia_transform_idempotent 100 200 ⟨[], [], 5⟩
    [wikiRawTitleA, wikiRawOther]
    ⟨fun w lang => by simp [currentRowsFor], by simp, by simp⟩
    (by
      intro r hr p hp
      rcases List.mem_cons.mp hr with rfl | hr
      · simp [wikiRawTitleA] at hp
        subst hp
        rfl
      · rcases List.mem_cons.mp hr with rfl | hr
        · simp [wikiRawOther] at hp
          subst hp
          rfl
        · cases hr)
    (by decide)
  exact ⟨h.1, h.2.1, h.2.2 wikiRawTitleA (by simp)
    ⟨some 42, some "A", .absent, some "rev1", none⟩ rfl⟩

/-- Witness for C3: starting from an empty dimension, two runs with
titles "A" then "B" leave exactly two rows for external id 42 — the
first closed at the second run's instant, the second current. -/
theorem wikipedia_scd_title_change_witness :
    ((transform_wikipedia_to_fact 200
        (transform_wikipedia_to_fact 100 ⟨[], [], 5⟩ [wikiRawTitleA]).db
        [wikiRawTitleB]).db).pages.filter
      (fun row => row.wikipedia_page_id == some 42) =
    [⟨5, some 42, "A", 0, "en", 100, some 200, false⟩,
     ⟨6, some 42, "B", 0, "en", 200, none, true⟩] ∧
    (5 : Int) ≠ 6 ∧ ("A" : String) ≠ "B" :=
  wikipedia_scd_title_change 100 200 ⟨[], [], 5⟩ wikiRawTitleA
    wikiRawTitleB ⟨some 42, some "A", .absent, some "rev1", none⟩
    ⟨some 42, some "B", .absent, some "rev2", none⟩ 42 "en" "A" "B"
    (by simp) rfl rfl rfl rfl rfl rfl rfl rfl (by decide)

theorem intMin?_spec (l : List Int) (a : Int) (h : l.min? = some a) :
    a ∈ l ∧ ∀ b ∈ l, a ≤ b :=
  (@List.min?_eq_some_iff Int a _ _ ⟨fun h1 h2 => le_antisymm h1 h2⟩
    (fun x => le_refl x) (fun x y => min_choice x y)
    (fun _ _ _ => le_min_iff) l).mp h

theorem minNegativeId_neg (pages : List PageDimRow) (m : Int)
    (h : minNegativeId pages = some m) : m < 0 := by
  have hm := (intMin?_spec _ m h).1
  have := List.of_mem_filter hm
  simpa using this

theorem minNegativeId_le (pages : List PageDimRow) (m v : Int)
    (h : minNegativeId pages = some m)
    (hv : some v ∈ pages.map (·.wikipedia_page_id)) (hneg : v < 0) :
    m ≤ v := by
  apply (intMin?_spec _ m h).2
  apply List.mem_filter.mpr
  constructor
  · rcases List.mem_map.mp hv with ⟨row, hrow, heq⟩
    exact List.mem_filterMap.mpr ⟨row, hrow, heq⟩
  · simpa using hneg

theorem minNegativeId_isSome_of_neg_mem (pages : List PageDimRow)
    (v : Int) (hv : some v ∈ pages.map (·.wikipedia_page_id))
    (hneg : v < 0) : ∃ m, minNegativeId pages = some m := by
  cases h : minNegativeId pages with
  | some m => exact ⟨m, rfl⟩
  | none =>
      exfalso
      have hempty := List.min?_eq_none_iff.mp h
      have : v ∈ (pages.filterMap (·.wikipedia_page_id)).filter
          (· < 0) := by
        apply List.mem_filter.mpr
        refine ⟨?_, by simpa using hneg⟩
        rcases List.mem_map.mp hv with ⟨row, hrow, heq⟩
        exact List.mem_filterMap.mpr ⟨row, hrow, heq⟩
      rw [hempty] at this
      simp at this

theorem minNegativeId_start_le (pages : List PageDimRow) :
    (minNegativeId pages).getD (-1) - 1 ≤ -2 := by
  cases h : minNegativeId pages with
  | none => simp
  | some m =>
      have := minNegativeId_neg pages m h
      simp only [Option.getD_some]
      omega

theorem seedPages_fold_assigned (now : Nat) (seeds : List SeedPage)
    (st : SeedPageState) :
    ∃ m : Nat,
      (seeds.foldl (seedOnePage now) st).assigned_ids.reverse =
        st.assigned_ids.reverse ++
          (List.range m).map (fun j : Nat => st.next_id - (j : Int)) ∧
      (seeds.foldl (seedOnePage now) st).next_id =
        st.next_id - (m : Int) := by
  induction seeds generalizing st with
  | nil => exact ⟨0, by simp, by simp⟩
  | cons s rest ih =>
      obtain ⟨m, h1, h2⟩ := ih (seedOnePage now st s)
      cases hfind : st.pages.find? (fun row =>
          row.page_title == s.title &&
          row.page_language == s.language.getD "en" && row.is_current) with
      | some e =>
          have ha : (seedOnePage now st s).assigned_ids =
              st.assigned_ids := by
            simp [seedOnePage, hfind]
          have hn : (seedOnePage now st s).next_id = st.next_id := by
            simp [seedOnePage, hfind]
          rw [ha, hn] at h1
          rw [hn] at h2
          exact ⟨m, h1, h2⟩
      | none =>
          have ha : (seedOnePage now st s).assigned_ids =
              st.next_id :: st.assigned_ids := by
            simp [seedOnePage, hfind]
          have hn : (seedOnePage now st s).next_id = st.next_id - 1 := by
            simp [seedOnePage, hfind]
          rw [ha, hn] at h1
          rw [hn] at h2
          have hfun : (fun j : Nat => st.next_id - ((j + 1 : Nat) : Int)) =
              (fun j : Nat => st.next_id - 1 - (j : Int)) := by
            funext j
            push_cast
            ring
          have hmap : (List.range (m + 1)).map
              (fun j : Nat => st.next_id - (j : Int)) =
              st.next_id :: (List.range m).map
                (fun j : Nat => st.next_id - 1 - (j : Int)) := by
            rw [List.range_succ_eq_map, List.map_cons, List.map_map]
            congr 1
            · simp
            · apply List.map_congr_left
              intro j hj
              simp only [Function.comp_apply]
              omega
          refine ⟨m + 1, ?_, ?_⟩
          · show (rest.foldl (seedOnePage now)
              (seedOnePage now st s)).assigned_ids.reverse = _
            rw [h1, hmap]
            simp [List.reverse_cons, List.append_assoc]
          · show (rest.foldl (seedOnePage now)
              (seedOnePage now st s)).next_id = _
            rw [h2]
            push_cast
            ring

theorem ensure_pages_assigned_formula (now : Nat)
    (l0 : List LocationDimRow) (nl : Int) (pg : List PageDimRow)
    (ns : Int) (sl : List SeedLocation) (sp : List SeedPage) :
    ∃ m : Nat,
      (ensure_location_dimension now l0 nl pg ns sl sp).assigned_ids =
        (List.range m).map
          (fun j : Nat =>
            (minNegativeId pg).getD (-1) - 1 - (j : Int)) := by
  obtain ⟨m, h1, _⟩ := seedPages_fold_assigned now sp
    ⟨pg, ns, (minNegativeId pg).getD (-1) - 1, [], 0, 0⟩
  refine ⟨m, ?_⟩
  show (sp.foldl (seedOnePage now)
    ⟨pg, ns, (minNegativeId pg).getD (-1) - 1, [], 0, 0⟩).assigned_ids.reverse
    = _
  rw [h1]
  simp

theorem seedPages_fold_ids_in_pages (now : Nat) (seeds : List SeedPage)
    (st : SeedPageState)
    (hst : ∀ a ∈ st.assigned_ids,
      some a ∈ st.pages.map (·.wikipedia_page_id)) :
    ∀ a ∈ (seeds.foldl (seedOnePage now) st).assigned_ids,
      some a ∈ (seeds.foldl (seedOnePage now) st).pages.map
        (·.wikipedia_page_id) := by
  induction seeds generalizing st with
  | nil => exact hst
  | cons s rest ih =>
      apply ih
      cases hfind : st.pages.find? (fun row =>
          row.page_title == s.title &&
          row.page_language == s.language.getD "en" && row.is_current) with
      | some e =>
          intro a ha
          have ha2 : a ∈ st.assigned_ids := by
            simpa [seedOnePage, hfind] using ha
          have hmem := hst a ha2
          simpa [seedOnePage, hfind] using hmem
      | none =>
          intro a ha
          have ha2 : a = st.next_id ∨ a ∈ st.assigned_ids := by
            simpa [seedOnePage, hfind] using ha
          have hpages : (seedOnePage now st s).pages.map
              (·.wikipedia_page_id) =
              st.pages.map (·.wikipedia_page_id) ++ [some st.next_id] := by
            simp [seedOnePage, hfind]
          rw [hpages]
          rcases ha2 with rfl | ha2
          · simp
          · simp [hst a ha2]

theorem ensure_pages_assigned_mem_pages (now : Nat)
    (l0 : List LocationDimRow) (nl : Int) (pg : List PageDimRow)
    (ns : Int) (sl : List SeedLocation) (sp : List SeedPage) :
    ∀ a ∈ (ensure_location_dimension now l0 nl pg ns sl sp).assigned_ids,
      some a ∈ (ensure_location_dimension now l0 nl pg ns sl sp).pages.map
        (·.wikipedia_page_id) := by
  intro a ha
  have ha2 : a ∈ (sp.foldl (seedOnePage now)
      ⟨pg, ns, (minNegativeId pg).getD (-1) - 1, [], 0, 0⟩).assigned_ids :=
    List.mem_reverse.mp ha
  exact seedPages_fold_ids_in_pages now sp
    ⟨pg, ns, (minNegativeId pg).getD (-1) - 1, [], 0, 0⟩ (by simp) a ha2

theorem ensure_pages_assigned_bounds (now : Nat)
    (l0 : List LocationDimRow) (nl : Int) (pg : List PageDimRow)
    (ns : Int) (sl : List SeedLocation) (sp : List SeedPage) :
    ∀ a ∈ (ensure_location_dimension now l0 nl pg ns sl sp).assigned_ids,
      a < 0 ∧
      ∀ v : Int, some v ∈ pg.map (·.wikipedia_page_id) → v < 0 →
        a < v := by
  intro a ha
  obtain ⟨m, hm⟩ := ensure_pages_assigned_formula now l0 nl pg ns sl sp
  rw [hm] at ha
  rcases List.mem_map.mp ha with ⟨j, hj, rfl⟩
  have hstart := minNegativeId_start_le pg
  constructor
  · omega
  · intro v hv hneg
    obtain ⟨mneg, hmneg⟩ := minNegativeId_isSome_of_neg_mem pg v hv hneg
    have hle := minNegativeId_le pg mneg v hmneg hv hneg
    rw [hmneg]
    simp only [Option.getD_some]
    omega

/-- C8: in `ensure_location_dimension`, every page newly inserted from
the seed list receives a synthetic `wikipedia_page_id` equal to
`((minimum existing negative id, defaulting to -1) - 1) - k`, where `k`
counts the inserts already made in the same call; hence synthetic ids
are strictly negative (disjoint from the positive externally-sourced
ids), strictly below every pre-existing negative id, and ids assigned
by a successive call on the resulting table are smaller than all ids
assigned in this call (monotonically decreasing across calls). -/
theorem seed_loader_synthetic_negative_ids (now : Nat)
    (l0 : List LocationDimRow) (nl : Int) (pg : List PageDimRow)
    (ns : Int) (sl : List SeedLocation) (sp : List SeedPage) :
    (∀ j, (hj : j < (ensure_location_dimension now l0 nl pg ns sl
        sp).assigned_ids.length) →
      (ensure_location_dimension now l0 nl pg ns sl sp).assigned_ids[j] =
        (minNegativeId pg).getD (-1) - 1 - (j : Int)) ∧
    (∀ a ∈ (ensure_location_dimension now l0 nl pg ns sl sp).assigned_ids,
      a < 0) ∧
    (∀ a ∈ (ensure_location_dimension now l0 nl pg ns sl sp).assigned_ids,
      ∀ v : Int, some v ∈ pg.map (·.wikipedia_page_id) → v < 0 →
        a < v) ∧
    (∀ (now2 : Nat) (l2 : List LocationDimRow) (nl2 ns2 : Int)
        (sl2 : List SeedLocation) (sp2 : List SeedPage),
      ∀ a2 ∈ (ensure_location_dimension now2 l2 nl2
          (ensure_location_dimension now l0 nl pg ns sl sp).pages ns2 sl2
          sp2).assigned_ids,
        ∀ a ∈ (ensure_location_dimension now l0 nl pg ns sl
            sp).assigned_ids,
          a2 < a) := by
  refine ⟨?_, ?_, ?_, ?_⟩
  · intro j hj
    obtain ⟨m, hm⟩ := ensure_pages_assigned_formula now l0 nl pg ns sl sp
    simp only [hm] at hj ⊢
    simp
  · intro a ha
    exact (ensure_pages_assigned_bounds now l0 nl pg ns sl sp a ha).1
  · intro a ha
    exact (ensure_pages_assigned_bounds now l0 nl pg ns sl sp a ha).2
  · intro now2 l2 nl2 ns2 sl2 sp2 a2 ha2 a ha
    have haneg :=
      (ensure_pages_assigned_bounds now l0 nl pg ns sl sp a ha).1
    have hamem := ensure_pages_assigned_mem_pages now l0 nl pg ns sl sp a ha
    exact (ensure_pages_assigned_bounds now2 l2 nl2
      (ensure_location_dimension now l0 nl pg ns sl sp).pages ns2 sl2 sp2
      a2 ha2).2 a hamem haneg

/-- Witness for C8: on a table whose minimum negative id is -3, two new
seed pages receive -4 and -5; a third page inserted by a successive call
receives -6, below both. -/
theorem seed_loader_synthetic_negative_ids_witness :
    (ensure_location_dimension 0 [] 1 pagesFix 10 []
      seedPagesFix).assigned_ids = [-4, -5] ∧
    ((-4 : Int) < 0) ∧ ((-4 : Int) < -3) ∧ ((-6 : Int) < -4) := by
  refine ⟨by decide, ?_, ?_, ?_⟩
  · exact (seed_loader_synthetic_negative_ids 0 [] 1 pagesFix 10 []
      seedPagesFix).2.1 (-4) (by decide)
  · exact (seed_loader_synthetic_negative_ids 0 [] 1 pagesFix 10 []
      seedPagesFix).2.2.1 (-4) (by decide) (-3) (by decide) (by decide)
  · exact (seed_loader_synthetic_negative_ids 0 [] 1 pagesFix 10 []
      seedPagesFix).2.2.2 0 [] 1 10 [] seedPagesFix2 (-6) (by decide)
      (-4) (by decide)

end DW
